import Mathlib

set_option maxHeartbeats 1000000
set_option maxRecDepth 16000

/-!
Shallow embedding of the ballot-scan interpreter (rust-image-testing).

Modelling conventions, used throughout:

* `i32` is `Int`, `u32`/`u8` are `Nat`; where the Rust arithmetic cannot
  overflow at the bit width, plain `Nat`/`Int` arithmetic is used.
* `f32` values are modelled by exact rationals (`ℚ`).  All the concrete
  inputs evaluated in this development keep every intermediate f32 value
  exactly representable, so the rational arithmetic agrees with the float
  arithmetic there.  `f32::sqrt` is modelled by `Rat.sqrt`, which agrees
  with it on perfect squares (the only places a square root is evaluated
  on a concrete input here).  NaN and infinities only matter for
  `normalize_angle`, which gets a dedicated `F32` carrier type.
* Grayscale images are a width, a height and a (total) pixel function;
  out-of-bounds reads, which panic in Rust, are only ever performed under
  hypotheses that keep them in bounds.
* The panic of an out-of-bounds `img.view` in `score_oval_mark` is
  modelled explicitly: the condition is `view_in_bounds`, and the
  function's outer `Option` layer is `none` for a run that would panic.
-/

/-- Integer rectangle following `imageproc::rect::Rect`: `left`/`top` are
`i32`, `width`/`height` are `u32`, and the right/bottom edges are inclusive
(`right = left + width - 1`). -/
structure Rect where
  left : Int
  top : Int
  width : Nat
  height : Nat
deriving DecidableEq, Repr

/-- `Rect::right()`: inclusive right edge, `left + width - 1`. -/
def Rect.right (r : Rect) : Int := r.left + r.width - 1

/-- `Rect::bottom()`: inclusive bottom edge, `top + height - 1`. -/
def Rect.bottom (r : Rect) : Int := r.top + r.height - 1

/-- A point with `f32` coordinates (`imageproc::point::Point<f32>`),
modelled over `ℚ`. -/
structure Point where
  x : ℚ
  y : ℚ
deriving DecidableEq, Repr

/-- `Size<T>` from src/src/types.rs. -/
structure Size (α : Type) where
  width : α
  height : α
deriving DecidableEq, Repr

/-- A line segment (src/src/geometry.rs `Segment`).  The Rust field `end`
is a Lean keyword, so it is called `stop` here. -/
structure Segment where
  start : Point
  stop : Point
deriving DecidableEq, Repr

/-- The denominator `d` computed inside `intersection_of_lines`
(src/src/geometry.rs lines 32). -/
def intersection_denominator (segment1 segment2 : Segment) : ℚ :=
  let p1 := segment1.start
  let p2 := segment1.stop
  let p3 := segment2.start
  let p4 := segment2.stop
  (p4.y - p3.y) * (p2.x - p1.x) - (p4.x - p3.x) * (p2.y - p1.y)

/-- `intersection_of_lines` from src/src/geometry.rs lines 23-45: parametric
intersection of two lines; `none` when the denominator vanishes, and when
`bounded` both parameters must lie in `[0, 1]`. -/
def intersection_of_lines (segment1 segment2 : Segment) (bounded : Bool) :
    Option Point :=
  let p1 := segment1.start
  let p2 := segment1.stop
  let p3 := segment2.start
  let p4 := segment2.stop
  let d := intersection_denominator segment1 segment2
  if d = 0 then none
  else
    let u_a := ((p4.x - p3.x) * (p1.y - p3.y) - (p4.y - p3.y) * (p1.x - p3.x)) / d
    let u_b := ((p2.x - p1.x) * (p1.y - p3.y) - (p2.y - p1.y) * (p1.x - p3.x)) / d
    if bounded = false ∨ (0 ≤ u_a ∧ u_a ≤ 1 ∧ 0 ≤ u_b ∧ u_b ≤ 1) then
      some ⟨u_a * (p2.x - p1.x) + p1.x, u_a * (p2.y - p1.y) + p1.y⟩
    else none

/-- `center_of_rect` from src/src/geometry.rs lines 117-122:
`left + (right - left) / 2` (and likewise vertically), with the inclusive
`right`/`bottom` edges. -/
def center_of_rect (rect : Rect) : Point :=
  ⟨(rect.left : ℚ) + ((rect.right : ℚ) - (rect.left : ℚ)) / 2,
   (rect.top : ℚ) + ((rect.bottom : ℚ) - (rect.top : ℚ)) / 2⟩

/-- `segment_distance` (called `.length()` on segments elsewhere in the
crate): the Euclidean length, src/src/geometry.rs lines 94-98.  `f32::sqrt`
is modelled by `Rat.sqrt`, which agrees with it on perfect squares. -/
def segment_distance (segment : Segment) : ℚ :=
  Rat.sqrt ((segment.start.x - segment.stop.x) ^ 2 +
    (segment.start.y - segment.stop.y) ^ 2)

/-- `segment_with_length` from src/src/geometry.rs lines 105-114.  The Rust
code computes the endpoint with `atan2`/`cos`/`sin`; for exact reals
`cos (atan2 dy dx) = dx / len` and `sin (atan2 dy dx) = dy / len`, which is
the form used here (with `x / 0 = 0` in the degenerate case the Rust code
would produce NaN, a value never consumed in this development). -/
def segment_with_length (segment : Segment) (length : ℚ) : Segment :=
  let p1 := segment.start
  let p2 := segment.stop
  let len := segment_distance segment
  ⟨p1, ⟨length * ((p2.x - p1.x) / len) + p1.x, length * ((p2.y - p1.y) / len) + p1.y⟩⟩

/-- Modelled from the spec: the `Segment::vector` method used at
src/src/timing_marks.rs line 482 is declared in a module that is not part
of src/; per the spec it is the displacement from the start of the segment
to its end. -/
def Segment.vector (s : Segment) : Point :=
  ⟨s.stop.x - s.start.x, s.stop.y - s.start.y⟩

/-- Rust `f32::round`: round half away from zero. -/
def round_away (q : ℚ) : Int :=
  if 0 ≤ q then ⌊q + 1 / 2⌋ else -⌊-q + 1 / 2⌋

/-! ## The `F32` carrier for `normalize_angle` -/

/-- A carrier for `f32` values that distinguishes NaN and the infinities,
for functions whose behaviour on them is specified.  Finite values are
exact rationals. -/
inductive F32 where
  | nan
  | inf (neg : Bool)
  | finite (val : ℚ)
deriving DecidableEq, Repr

/-- The exact rational value of `std::f32::consts::PI` (bit pattern
`0x40490fdb`). -/
def PI_F32 : ℚ := 13176795 / 4194304

/-- Rust `%` on floats is the IEEE remainder truncated toward zero, which
is exact; this is its rational counterpart. -/
def rust_rem (a b : ℚ) : ℚ :=
  a - b * (if 0 ≤ a / b then (⌊a / b⌋ : ℚ) else (⌈a / b⌉ : ℚ))

/-- The `while angle < 0.0 { angle += PI }` loop of `normalize_angle`
(src/src/geometry.rs lines 84-86). -/
def add_pi_loop (angle : ℚ) : ℚ :=
  if angle < 0 then add_pi_loop (angle + PI_F32) else angle
termination_by (⌈-angle / PI_F32⌉).toNat
decreasing_by
  have hpi : (0 : ℚ) < PI_F32 := by norm_num [PI_F32]
  have h1 : -(angle + PI_F32) / PI_F32 = -angle / PI_F32 - 1 := by
    field_simp
    ring
  have h2 : (0 : ℚ) < -angle / PI_F32 := div_pos (by linarith) hpi
  have h3 : 0 < ⌈-angle / PI_F32⌉ := Int.ceil_pos.mpr h2
  have h4 : ⌈-(angle + PI_F32) / PI_F32⌉ = ⌈-angle / PI_F32⌉ - 1 := by
    rw [h1, Int.ceil_sub_one]
  omega

/-- The `while angle >= PI { angle -= PI }` loop of `normalize_angle`
(src/src/geometry.rs lines 87-89). -/
def sub_pi_loop (angle : ℚ) : ℚ :=
  if PI_F32 ≤ angle then sub_pi_loop (angle - PI_F32) else angle
termination_by (⌊angle / PI_F32⌋).toNat
decreasing_by
  have hpi : (0 : ℚ) < PI_F32 := by norm_num [PI_F32]
  have h1 : (angle - PI_F32) / PI_F32 = angle / PI_F32 - 1 := by
    field_simp
  have h2 : (1 : ℚ) ≤ angle / PI_F32 := by
    rw [le_div_iff₀ hpi]; linarith
  have h3 : 1 ≤ ⌊angle / PI_F32⌋ := by exact_mod_cast Int.le_floor.mpr (by exact_mod_cast h2)
  have h4 : ⌊(angle - PI_F32) / PI_F32⌋ = ⌊angle / PI_F32⌋ - 1 := by
    rw [h1, Int.floor_sub_one]
  omega

/-- `normalize_angle` from src/src/geometry.rs lines 78-91: NaN and the
infinities pass through; otherwise reduce modulo `2π` and shift into
`[0, π)` by whole multiples of `π`. -/
def normalize_angle (angle : F32) : F32 :=
  match angle with
  | .nan => .nan
  | .inf b => .inf b
  | .finite a => .finite (sub_pi_loop (add_pi_loop (rust_rem a (2 * PI_F32))))

/-! ## Image utilities (src/src/image_utils.rs) -/

/-- A grayscale image: dimensions plus a total pixel function (luma values
are `u8`, i.e. naturals below 256).  Reads outside the dimensions panic in
the Rust `image` crate; they are only performed here under hypotheses that
keep them in bounds. -/
structure GrayImage where
  width : Nat
  height : Nat
  pixel : Nat → Nat → Nat

/-- `WHITE` from src/src/image_utils.rs (`Luma([u8::MAX])`). -/
def WHITE : Nat := 255

/-- `BLACK` from src/src/image_utils.rs (`Luma([u8::MIN])`). -/
def BLACK : Nat := 0

/-- `diff` from src/src/image_utils.rs lines 48-68: per pixel,
`u8::MAX - (base - compare clamped below at 0)`.  The Rust code asserts the
two images have equal dimensions; the output takes its dimensions from
`base`. -/
def diff (base compare : GrayImage) : GrayImage :=
  { width := base.width
    height := base.height
    pixel := fun x y =>
      WHITE - (if base.pixel x y < compare.pixel x y then 0
               else base.pixel x y - compare.pixel x y) }

/-- `count_pixels` from src/src/image_utils.rs lines 71-73: the number of
pixels equal to the given luma. -/
def count_pixels (img : GrayImage) (luma : Nat) : Nat :=
  ((List.range img.width).map (fun x =>
    ((List.range img.height).filter (fun y => img.pixel x y = luma)).length)).sum

/-- `ratio` from src/src/image_utils.rs lines 76-79: matching pixels over
total pixels.  The `f32` division is modelled over `ℚ`; in particular
`0 / 0 = 0` here where Rust produces NaN (both differ from `1.0`, which is
all any theorem below uses about that case). -/
def ratio (img : GrayImage) (luma : Nat) : ℚ :=
  (count_pixels img luma : ℚ) / ((img.width * img.height : Nat) : ℚ)

/-- `imageproc::contrast::threshold`: binarize, sending pixels strictly
above the threshold to 255 and the rest to 0. -/
def threshold_image (img : GrayImage) (thresh : Nat) : GrayImage :=
  { width := img.width
    height := img.height
    pixel := fun x y => if thresh < img.pixel x y then 255 else 0 }

/-- `img.view(x, y, w, h).to_image()`: a template-sized crop.  The Rust
view panics when it exceeds the source bounds; `view_in_bounds` below
states that condition, `score_oval_mark` maps runs that would panic to
`none`, and every other crop is taken under hypotheses that keep the view
in bounds. -/
def crop_image (img : GrayImage) (x y w h : Nat) : GrayImage :=
  ⟨w, h, fun dx dy => img.pixel (x + dx) (y + dy)⟩

/-! ## Ballot-card geometry (src/src/types.rs, constructed in src/src/main.rs) -/

/-- `BallotPaperSize` from src/src/types.rs (via src/src/ballot_card.rs). -/
inductive BallotPaperSize where
  | letter
  | legal
deriving DecidableEq, Repr

/-- `BallotCardGeometry` from src/src/types.rs. -/
structure BallotCardGeometry where
  ballot_paper_size : BallotPaperSize
  pixels_per_inch : Nat
  canvas_size : Size Nat
  content_area : Rect
  oval_size : Size Nat
  timing_mark_size : Size ℚ
  grid_size : Size Nat
  front_usable_area : Rect
  back_usable_area : Rect
deriving DecidableEq, Repr

/-- `get_scanned_ballot_card_geometry_8pt5x11` from src/src/main.rs lines
36-60: the Letter geometry. -/
def get_scanned_ballot_card_geometry_8pt5x11 : BallotCardGeometry :=
  { ballot_paper_size := .letter
    pixels_per_inch := 200
    canvas_size := ⟨1696, 2200⟩
    content_area := ⟨0, 0, 1696, 2200⟩
    oval_size := ⟨40, 26⟩
    timing_mark_size := ⟨75 / 2, 25 / 2⟩
    grid_size := ⟨34, 41⟩
    front_usable_area := ⟨0, 0, 34, 41⟩
    back_usable_area := ⟨0, 0, 34, 41⟩ }

/-- `get_scanned_ballot_card_geometry_8pt5x14` from src/src/main.rs lines
62-86: the Legal geometry. -/
def get_scanned_ballot_card_geometry_8pt5x14 : BallotCardGeometry :=
  { ballot_paper_size := .legal
    pixels_per_inch := 200
    canvas_size := ⟨1696, 2800⟩
    content_area := ⟨0, 0, 1696, 2800⟩
    oval_size := ⟨40, 26⟩
    timing_mark_size := ⟨75 / 2, 25 / 2⟩
    grid_size := ⟨34, 53⟩
    front_usable_area := ⟨0, 0, 34, 53⟩
    back_usable_area := ⟨0, 0, 34, 53⟩ }

/-! ## Timing-mark structures (src/src/timing_marks.rs) -/

/-- `PartialTimingMarks` from src/src/timing_marks.rs lines 27-41. -/
structure PartialTimingMarks where
  geometry : BallotCardGeometry
  top_left_corner : Point
  top_right_corner : Point
  bottom_left_corner : Point
  bottom_right_corner : Point
  top_rects : List Rect
  bottom_rects : List Rect
  left_rects : List Rect
  right_rects : List Rect
  top_left_rect : Option Rect
  top_right_rect : Option Rect
  bottom_left_rect : Option Rect
  bottom_right_rect : Option Rect
deriving DecidableEq, Repr

/-- `CompleteTimingMarks` from src/src/timing_marks.rs lines 64-78. -/
structure CompleteTimingMarks where
  geometry : BallotCardGeometry
  top_left_corner : Point
  top_right_corner : Point
  bottom_left_corner : Point
  bottom_right_corner : Point
  top_rects : List Rect
  bottom_rects : List Rect
  left_rects : List Rect
  right_rects : List Rect
  top_left_rect : Rect
  top_right_rect : Rect
  bottom_left_rect : Rect
  bottom_right_rect : Rect
deriving DecidableEq, Repr

/-- `TimingMarkGrid` from src/src/timing_marks.rs lines 82-85. -/
structure TimingMarkGrid where
  geometry : BallotCardGeometry
  complete_timing_marks : CompleteTimingMarks
deriving DecidableEq, Repr

/-- `TimingMarkGrid::get` from src/src/timing_marks.rs lines 107-123:
bounds check against the grid size, then `?`-lookups into the four side
lists, then the unbounded intersection of the segment through the centers
of the row's left/right marks with the segment through the centers of the
column's top/bottom marks. -/
def TimingMarkGrid.get (grid : TimingMarkGrid) (column row : Nat) : Option Point :=
  if grid.geometry.grid_size.width ≤ column ∨ grid.geometry.grid_size.height ≤ row then
    none
  else do
    let left ← grid.complete_timing_marks.left_rects[row]?
    let right ← grid.complete_timing_marks.right_rects[row]?
    let top ← grid.complete_timing_marks.top_rects[column]?
    let bottom ← grid.complete_timing_marks.bottom_rects[column]?
    let horizontal_segment : Segment := ⟨center_of_rect left, center_of_rect right⟩
    let vertical_segment : Segment := ⟨center_of_rect top, center_of_rect bottom⟩
    intersection_of_lines horizontal_segment vertical_segment false

/-- The `half_height` threshold of
`find_partial_timing_marks_from_candidate_rects`
(src/src/timing_marks.rs line 155): `(canvas_size.height / 2) as i32`,
using the flooring `u32` division. -/
def half_height_of (geometry : BallotCardGeometry) : Int :=
  ((geometry.canvas_size.height / 2 : Nat) : Int)

/-- The `top_half_rects` pool of
`find_partial_timing_marks_from_candidate_rects`
(src/src/timing_marks.rs lines 156-160). -/
def top_half_rects (geometry : BallotCardGeometry) (rects : List Rect) : List Rect :=
  rects.filter (fun r => r.top < half_height_of geometry)

/-- The `bottom_half_rects` pool (src/src/timing_marks.rs lines 161-165). -/
def bottom_half_rects (geometry : BallotCardGeometry) (rects : List Rect) : List Rect :=
  rects.filter (fun r => half_height_of geometry ≤ r.top)

/-- The `left_half_rects` pool (src/src/timing_marks.rs lines 166-170).
Note that the source compares `r.left()` against `half_height`, i.e.
against half the canvas *height*. -/
def left_half_rects (geometry : BallotCardGeometry) (rects : List Rect) : List Rect :=
  rects.filter (fun r => r.left < half_height_of geometry)

/-- The `right_half_rects` pool (src/src/timing_marks.rs lines 171-175).
Note that the source compares `r.left()` against `half_height`, i.e.
against half the canvas *height*. -/
def right_half_rects (geometry : BallotCardGeometry) (rects : List Rect) : List Rect :=
  rects.filter (fun r => half_height_of geometry ≤ r.left)

/-! ## Metadata (src/src/metadata.rs) -/

/-- `METADATA_BITS` from src/src/metadata.rs line 11. -/
def METADATA_BITS : Nat := 32

/-- `ENDER_CODE` from src/src/metadata.rs lines 14-16. -/
def ENDER_CODE : List Bool :=
  [false, true, true, true, true, false, true, true, true, true, false]

/-- `BallotPageMetadataFront` from src/src/metadata.rs lines 29-55.  The
`u8`/`u16` fields are naturals (none of the decoders can overflow their
Rust width: the widest field is 13 bits). -/
structure BallotPageMetadataFront where
  bits : List Bool
  mod_4_checksum : Nat
  computed_mod_4_checksum : Nat
  batch_or_precinct_number : Nat
  card_number : Nat
  sequence_number : Nat
  start_bit : Nat
deriving DecidableEq, Repr

/-- `BallotPageMetadataBack` from src/src/metadata.rs lines 99-122; the
`election_type` letter is kept as its `u8` index
(`IndexedCapitalLetter`). -/
structure BallotPageMetadataBack where
  bits : List Bool
  election_day : Nat
  election_month : Nat
  election_year : Nat
  election_type : Nat
  ender_code : List Bool
  expected_ender_code : List Bool
deriving DecidableEq, Repr

/-- `BallotPageMetadata` from src/src/metadata.rs lines 146-149. -/
inductive BallotPageMetadata where
  | front (m : BallotPageMetadataFront)
  | back (m : BallotPageMetadataBack)
deriving DecidableEq, Repr

/-- `BallotPageMetadataError` from src/src/metadata.rs lines 153-175. -/
inductive BallotPageMetadataError where
  | valueOutOfRange (field : String) (value min max : Nat)
      (metadata : BallotPageMetadata)
  | invalidChecksum (metadata : BallotPageMetadataFront)
  | invalidEnderCode (metadata : BallotPageMetadataBack)
  | invalidTimingMarkCount (expected actual : Nat)
  | ambiguousMetadata (front_metadata : BallotPageMetadataFront)
      (back_metadata : BallotPageMetadataBack)
deriving DecidableEq, Repr

/-- The `slice.iter().rev().fold(0, |acc, &bit| (acc << 1) + u8::from(bit))`
pattern used by both decoders: read a little-endian slice by folding over
it in reverse with shift-and-add. -/
def fold_bits_rev (slice : List Bool) : Nat :=
  slice.reverse.foldl (fun acc bit => 2 * acc + (if bit then 1 else 0)) 0

/-- The little-endian value of a bit slice, bit 0 least significant: the
form in which the spec states the field values. -/
def le_value (slice : List Bool) : Nat :=
  slice.foldr (fun bit acc => (if bit then 1 else 0) + 2 * acc) 0

/-- The popcount of a bit slice, as used by the spec for the mod-4
checksum. -/
def popcount (slice : List Bool) : Nat :=
  slice.count true

/-- `decode_front_metadata_from_bits` from src/src/metadata.rs lines
229-283.  `bits_rtl` models the `&[bool; 32]` argument; on lists of length
32 every slice below coincides with the Rust slice. -/
def decode_front_metadata_from_bits (bits_rtl : List Bool) :
    Except BallotPageMetadataError BallotPageMetadataFront :=
  let computed_mod_4_checksum :=
    ((bits_rtl.drop 2).map (fun bit => if bit then 1 else 0)).sum % 4
  let mod_4_checksum := fold_bits_rev (bits_rtl.take 2)
  let batch_or_precinct_number := fold_bits_rev ((bits_rtl.drop 2).take 13)
  let card_number := fold_bits_rev ((bits_rtl.drop 15).take 13)
  let sequence_number := fold_bits_rev ((bits_rtl.drop 28).take 3)
  let start_bit : Nat := if bits_rtl.getD 31 false then 1 else 0
  let front_metadata : BallotPageMetadataFront :=
    { bits := bits_rtl
      mod_4_checksum
      computed_mod_4_checksum
      batch_or_precinct_number
      card_number
      sequence_number
      start_bit }
  if computed_mod_4_checksum ≠ mod_4_checksum then
    .error (.invalidChecksum front_metadata)
  else if start_bit ≠ 1 then
    .error (.valueOutOfRange "start_bit" start_bit 1 1 (.front front_metadata))
  else
    .ok front_metadata

/-- `decode_back_metadata_from_bits` from src/src/metadata.rs lines
286-331. -/
def decode_back_metadata_from_bits (bits_rtl : List Bool) :
    Except BallotPageMetadataError BallotPageMetadataBack :=
  let election_day := fold_bits_rev (bits_rtl.take 5)
  let election_month := fold_bits_rev ((bits_rtl.drop 5).take 4)
  let election_year := fold_bits_rev ((bits_rtl.drop 9).take 7)
  let election_type := fold_bits_rev ((bits_rtl.drop 16).take 5)
  let ender_code := (bits_rtl.drop 21).take 11
  let back_metadata : BallotPageMetadataBack :=
    { bits := bits_rtl
      election_day
      election_month
      election_year
      election_type
      ender_code
      expected_ender_code := ENDER_CODE }
  if ender_code ≠ ENDER_CODE then
    .error (.invalidEnderCode back_metadata)
  else
    .ok back_metadata

/-- The bit-extraction loop of `compute_bits_from_bottom_timing_marks`
(src/src/metadata.rs lines 196-223), after both iterators have been
reversed and their first element (the rightmost timing mark) skipped.  The
first list is the remaining complete marks, the second the remaining
partial marks with the current partial mark at its head; `n` counts the
bit slots still to fill.  When a match consumes the final partial mark the
Rust loop breaks, leaving the remaining bits `false`.  The branches where
a list is exhausted early cannot be reached under the length guards of
`compute_bits_from_bottom_timing_marks` (the Rust code marks them
`unreachable!`); they are completed here by emitting `false` bits. -/
def compute_bits_go : List Rect → List Rect → Nat → List Bool
  | _, _, 0 => []
  | [], partial_marks, n + 1 => false :: compute_bits_go [] partial_marks n
  | _ :: complete_rest, [], n + 1 => false :: compute_bits_go complete_rest [] n
  | current_complete :: complete_rest, current_partial_mark :: partial_rest, n + 1 =>
    if current_complete = current_partial_mark then
      match partial_rest with
      | [] => true :: List.replicate n false
      | next_partial_mark :: partial_more =>
        true :: compute_bits_go complete_rest (next_partial_mark :: partial_more) n
    else
      false :: compute_bits_go complete_rest (current_partial_mark :: partial_rest) n

/-- `compute_bits_from_bottom_timing_marks` from src/src/metadata.rs lines
178-226: guard the two counts, then walk both lists right to left with the
rightmost mark of each skipped. -/
def compute_bits_from_bottom_timing_marks
    (partial_timing_marks complete_timing_marks : List Rect) :
    Except BallotPageMetadataError (List Bool) :=
  if complete_timing_marks.length ≠ 34 then
    .error (.invalidTimingMarkCount 34 complete_timing_marks.length)
  else if partial_timing_marks.length < 2 then
    .error (.invalidTimingMarkCount 2 partial_timing_marks.length)
  else
    .ok (compute_bits_go (complete_timing_marks.reverse.drop 1)
      (partial_timing_marks.reverse.drop 1) METADATA_BITS)

/-- `decode_metadata_from_timing_marks` from src/src/metadata.rs lines
336-359: compute the bits from the bottom rows, decode them both ways, and
dispatch on which decodings validate. -/
def decode_metadata_from_timing_marks (partial_timing_marks : PartialTimingMarks)
    (complete_timing_marks : CompleteTimingMarks) :
    Except BallotPageMetadataError BallotPageMetadata :=
  match compute_bits_from_bottom_timing_marks partial_timing_marks.bottom_rects
      complete_timing_marks.bottom_rects with
  | .error e => .error e
  | .ok bits =>
    match decode_front_metadata_from_bits bits, decode_back_metadata_from_bits bits with
    | .ok front_metadata, .ok back_metadata =>
      .error (.ambiguousMetadata front_metadata back_metadata)
    | .ok front_metadata, .error _ => .ok (.front front_metadata)
    | .error _, .ok back_metadata => .ok (.back back_metadata)
    | .error front_metadata_error, .error _ => .error front_metadata_error

/-- Spec-side formulation for the bottom-row bits: the `k`-th element of a
list counted from the right after skipping the rightmost element, or
`none` when the list has no such element. -/
def nth_from_right (l : List Rect) (k : Nat) : Option Rect :=
  if k + 2 ≤ l.length then l[l.length - 2 - k]? else none

/-- Spec-side formulation of the bit walk: bit slot `i` compares the
`i`-th completed mark from the right (rightmost skipped) with the `j`-th
still-unmatched partial mark from the right (rightmost skipped); the
partial cursor advances exactly on a match, and a slot with no mark to
compare is `false`. -/
def spec_bits_go (complete_marks partial_marks : List Rect) :
    Nat → Nat → Nat → List Bool
  | _, _, 0 => []
  | i, j, n + 1 =>
    match nth_from_right complete_marks i, nth_from_right partial_marks j with
    | some c, some p =>
      if c = p then
        true :: spec_bits_go complete_marks partial_marks (i + 1) (j + 1) n
      else
        false :: spec_bits_go complete_marks partial_marks (i + 1) j n
    | _, _ => false :: spec_bits_go complete_marks partial_marks (i + 1) j n

/-- Spec-side formulation of the 32 bottom-row bits, per the claim: walk
both lists right to left, skip the rightmost element of each, set bit `i`
iff the `i`-th completed mark equals the next still-unmatched partial
mark, advancing the partial cursor on each match. -/
def spec_bottom_row_bits (complete_marks partial_marks : List Rect) : List Bool :=
  spec_bits_go complete_marks partial_marks 0 0 32

/-! ## Completion (src/src/timing_marks.rs lines 358-521) -/

/-- Insertion of a rational into a sorted list, for modelling
`sort_by(partial_cmp)` on distances (no NaNs arise: every distance is a
real square root of a nonnegative value). -/
def insert_sorted (x : ℚ) : List ℚ → List ℚ
  | [] => [x]
  | y :: ys => if x ≤ y then x :: y :: ys else y :: insert_sorted x ys

/-- An ascending sort of rationals (`sort_by(partial_cmp)`). -/
def sort_rationals (l : List ℚ) : List ℚ :=
  l.foldr insert_sorted []

/-- `distances_between_rects` from src/src/timing_marks.rs lines 536-543:
center-to-center distances of adjacent rects, sorted ascending. -/
def distances_between_rects (rects : List Rect) : List ℚ :=
  sort_rationals ((rects.zip rects.tail).map (fun w =>
    segment_distance ⟨center_of_rect w.2, center_of_rect w.1⟩))

/-- The `min_by` over timing marks of the distance from the mark's center
to `current` (src/src/timing_marks.rs lines 486-495).  Rust's `min_by`
returns the first of equally minimal elements, which the fold below
preserves.  The empty case cannot be reached (the caller guards it). -/
def closest_rect (timing_marks : List Rect) (current : Point) : Rect :=
  match timing_marks with
  | [] => ⟨0, 0, 0, 0⟩
  | t :: ts =>
    ts.foldl (fun best r =>
      if segment_distance ⟨center_of_rect r, current⟩ <
          segment_distance ⟨center_of_rect best, current⟩ then r else best) t

/-- One pass of the `while inferred_timing_marks.len() < expected_count`
loop of `infer_missing_timing_marks_on_segment`
(src/src/timing_marks.rs lines 484-519), structured over the number of
marks still to produce. -/
def infer_go (timing_marks : List Rect) (next_point_vector : Point)
    (maximum_error : ℚ) (geometry : BallotCardGeometry) :
    Point → Nat → List Rect
  | _, 0 => []
  | current, n + 1 =>
    let closest := closest_rect timing_marks current
    if segment_distance ⟨center_of_rect closest, current⟩ ≤ maximum_error then
      closest :: infer_go timing_marks next_point_vector maximum_error geometry
        ⟨(center_of_rect closest).x + next_point_vector.x,
         (center_of_rect closest).y + next_point_vector.y⟩ n
    else
      (⟨round_away (current.x - geometry.timing_mark_size.width / 2),
        round_away (current.y - geometry.timing_mark_size.height / 2),
        (round_away geometry.timing_mark_size.width).toNat,
        (round_away geometry.timing_mark_size.height).toNat⟩ : Rect) ::
      infer_go timing_marks next_point_vector maximum_error geometry
        ⟨current.x + next_point_vector.x, current.y + next_point_vector.y⟩ n

/-- `infer_missing_timing_marks_on_segment` from src/src/timing_marks.rs
lines 469-521: empty input yields an empty output, otherwise walk the
segment with the expected step, snapping to the closest known mark when it
is within half the expected distance and synthesizing a nominal-size mark
otherwise. -/
def infer_missing_timing_marks_on_segment (timing_marks : List Rect)
    (segment : Segment) (expected_distance : ℚ) (expected_count : Nat)
    (geometry : BallotCardGeometry) : List Rect :=
  if timing_marks.isEmpty then []
  else
    let next_point_vector := (segment_with_length segment expected_distance).vector
    let maximum_error := expected_distance / 2
    infer_go timing_marks next_point_vector maximum_error geometry
      segment.start expected_count

/-- `find_complete_timing_marks_from_partial_timing_marks` from
src/src/timing_marks.rs lines 359-463: require all four corner rects,
take the median of all adjacent-mark distances, infer each side, and
require the top/bottom and left/right counts to agree pairwise. -/
def find_complete_timing_marks_from_partial_timing_marks
    (partial_timing_marks : PartialTimingMarks)
    (geometry : BallotCardGeometry) : Option CompleteTimingMarks :=
  match partial_timing_marks.top_left_rect, partial_timing_marks.top_right_rect,
      partial_timing_marks.bottom_left_rect, partial_timing_marks.bottom_right_rect with
  | some top_left_rect, some top_right_rect, some bottom_left_rect,
      some bottom_right_rect =>
    let all_distances := sort_rationals
      (distances_between_rects partial_timing_marks.top_rects ++
       distances_between_rects partial_timing_marks.bottom_rects ++
       distances_between_rects partial_timing_marks.left_rects ++
       distances_between_rects partial_timing_marks.right_rects)
    if all_distances.isEmpty then none
    else
      let median_distance := all_distances.getD (all_distances.length / 2) 0
      let top_line := infer_missing_timing_marks_on_segment
        partial_timing_marks.top_rects
        ⟨partial_timing_marks.top_left_corner, partial_timing_marks.top_right_corner⟩
        median_distance geometry.grid_size.width geometry
      let bottom_line := infer_missing_timing_marks_on_segment
        partial_timing_marks.bottom_rects
        ⟨partial_timing_marks.bottom_left_corner,
         partial_timing_marks.bottom_right_corner⟩
        median_distance geometry.grid_size.width geometry
      let left_line := infer_missing_timing_marks_on_segment
        partial_timing_marks.left_rects
        ⟨partial_timing_marks.top_left_corner, partial_timing_marks.bottom_left_corner⟩
        median_distance geometry.grid_size.height geometry
      let right_line := infer_missing_timing_marks_on_segment
        partial_timing_marks.right_rects
        ⟨partial_timing_marks.top_right_corner,
         partial_timing_marks.bottom_right_corner⟩
        median_distance geometry.grid_size.height geometry
      if top_line.length ≠ bottom_line.length ∨ left_line.length ≠ right_line.length then
        none
      else
        some { geometry
               top_rects := top_line
               bottom_rects := bottom_line
               left_rects := left_line
               right_rects := right_line
               top_left_corner := partial_timing_marks.top_left_corner
               top_right_corner := partial_timing_marks.top_right_corner
               bottom_left_corner := partial_timing_marks.bottom_left_corner
               bottom_right_corner := partial_timing_marks.bottom_right_corner
               top_left_rect
               top_right_rect
               bottom_left_rect
               bottom_right_rect }
  | _, _, _, _ => none

/-! ## Oval scoring (src/src/timing_marks.rs lines 558-719) -/

/-- `BallotSide` from src/src/types.rs. -/
inductive BallotSide where
  | front
  | back
deriving DecidableEq, Repr

/-- `GridLocation`: a side plus a grid column and row. -/
structure GridLocation where
  side : BallotSide
  column : Nat
  row : Nat
deriving DecidableEq, Repr

/-- `ScoredOvalMark` from src/src/timing_marks.rs lines 584-594; the two
`OvalMarkScore` newtypes are carried as plain rationals. -/
structure ScoredOvalMark where
  location : GridLocation
  match_score : ℚ
  fill_score : ℚ
  original_bounds : Rect
  matched_bounds : Rect
  source_image : GrayImage
  binarized_source_image : GrayImage
  match_diff_image : GrayImage
  fill_diff_image : GrayImage

/-- `DEFAULT_MAXIMUM_SEARCH_DISTANCE` from src/src/timing_marks.rs line
606. -/
def DEFAULT_MAXIMUM_SEARCH_DISTANCE : Nat := 7

/-- The offsets `-(d)..d` of the translational search loops in
`score_oval_mark` (src/src/timing_marks.rs lines 667 and 673). -/
def search_offsets (maximum_search_distance : Nat) : List Int :=
  (List.range (2 * maximum_search_distance)).map
    (fun (k : Nat) => (k : Int) - (maximum_search_distance : Int))

/-- The pairs `(offset_x, offset_y)` visited by the nested search loops of
`score_oval_mark`, in visit order (outer loop over `x`). -/
def search_offset_pairs (maximum_search_distance : Nat) : List (Int × Int) :=
  (search_offsets maximum_search_distance).flatMap (fun offset_x =>
    (search_offsets maximum_search_distance).map (fun offset_y => (offset_x, offset_y)))

/-- The match-diff image `score_oval_mark` computes at one search offset:
crop a template-sized patch at the offset position, binarize it and diff
it against the template. -/
def offset_match_diff (img oval_template : GrayImage) (threshold : Nat)
    (left top : Nat) (offset : Int × Int) : GrayImage :=
  diff (threshold_image (crop_image img ((left : Int) + offset.1).toNat
    ((top : Int) + offset.2).toNat oval_template.width oval_template.height) threshold)
    oval_template

/-- The match score `score_oval_mark` computes at one search offset: the
WHITE ratio of the offset's match diff. -/
def offset_match_score (img oval_template : GrayImage) (threshold : Nat)
    (left top : Nat) (offset : Int × Int) : ℚ :=
  ratio (offset_match_diff img oval_template threshold left top offset) WHITE

/-- The matched bounds corresponding to one search offset. -/
def offset_match_bounds (oval_template : GrayImage) (left top : Nat)
    (offset : Int × Int) : Rect :=
  ⟨(left : Int) + offset.1, (top : Int) + offset.2,
   oval_template.width, oval_template.height⟩

/-- The in-bounds condition of `img.view(x, y, w, h)` (imageproc
`GenericImage::view`): the view must lie inside the image; otherwise the
Rust call panics. -/
def view_in_bounds (img : GrayImage) (x y w h : Nat) : Prop :=
  x + w ≤ img.width ∧ y + h ≤ img.height

instance view_in_bounds_decidable (img : GrayImage) (x y w h : Nat) :
    Decidable (view_in_bounds img x y w h) := by
  unfold view_in_bounds
  infer_instance

/-- The body of the translational search of `score_oval_mark` once both
`continue` guards have passed (src/src/timing_marks.rs lines 680-691): crop
a template-sized patch at the offset position, binarize it, diff it against
the template and keep the best score.  The `none` accumulator models the
initial `NEG_INFINITY` score, which any real ratio exceeds. -/
def score_accum (img oval_template : GrayImage) (threshold : Nat) (left top : Nat)
    (best : Option (ℚ × Rect × GrayImage)) (offset : Int × Int) :
    Option (ℚ × Rect × GrayImage) :=
  let x := (left : Int) + offset.1
  let y := (top : Int) + offset.2
  let cropped := crop_image img x.toNat y.toNat oval_template.width
    oval_template.height
  let cropped_and_thresholded := threshold_image cropped threshold
  let match_diff := diff cropped_and_thresholded oval_template
  let match_score := ratio match_diff WHITE
  match best with
  | none => some (match_score,
      ⟨x, y, oval_template.width, oval_template.height⟩, match_diff)
  | some (best_match_score, best_match_bounds, best_match_diff) =>
    if best_match_score < match_score then
      some (match_score, ⟨x, y, oval_template.width, oval_template.height⟩,
        match_diff)
    else
      some (best_match_score, best_match_bounds, best_match_diff)

/-- One iteration of the translational search in `score_oval_mark`
(src/src/timing_marks.rs lines 667-692).  The outer `Option` layer models a
panic: the two `continue` guards skip offsets whose patch origin has a
negative coordinate, and at a non-skipped offset `img.view` panics when the
patch exceeds the image, which aborts the whole call (`none`). -/
def score_step (img oval_template : GrayImage) (threshold : Nat) (left top : Nat)
    (best : Option (Option (ℚ × Rect × GrayImage))) (offset : Int × Int) :
    Option (Option (ℚ × Rect × GrayImage)) :=
  match best with
  | none => none
  | some acc =>
    if (left : Int) + offset.1 < 0 then some acc
    else if (top : Int) + offset.2 < 0 then some acc
    else if view_in_bounds img ((left : Int) + offset.1).toNat
        ((top : Int) + offset.2).toNat oval_template.width oval_template.height then
      some (score_accum img oval_template threshold left top acc offset)
    else none

/-- The offsets of the search square that the loop body of
`score_oval_mark` actually scores: the two `continue` guards
(src/src/timing_marks.rs lines 669-678) skip an offset exactly when its
patch origin has a negative x or y coordinate. -/
def visited_offset_pairs (left top : Nat) (maximum_search_distance : Nat) :
    List (Int × Int) :=
  (search_offset_pairs maximum_search_distance).filter
    (fun q => decide (0 ≤ (left : Int) + q.1) && decide (0 ≤ (top : Int) + q.2))

/-- `score_oval_mark` from src/src/timing_marks.rs lines 648-719: round the
expected center, walk the offsets of `[-d, d) × [-d, d)` skipping positions
with a negative coordinate, score each visited patch against the template,
and compute the fill score at the winning bounds.  The outer `Option`
models panic: `img.view` aborts the program when a visited patch exceeds
the image, so such a run is `none`; `some none` is the source's `None`
return (no offset visited at all) and `some (some mark)` its `Some` return.
The final `img.view` at the winning bounds repeats a view that already
succeeded inside the loop, so it cannot panic and is taken directly. -/
def score_oval_mark (img oval_template : GrayImage) (expected_oval_center : Point)
    (location : GridLocation) (maximum_search_distance : Nat) (threshold : Nat) :
    Option (Option ScoredOvalMark) :=
  let center_x := (round_away expected_oval_center.x).toNat
  let center_y := (round_away expected_oval_center.y).toNat
  let left := center_x - oval_template.width / 2
  let top := center_y - oval_template.height / 2
  let original_bounds : Rect :=
    ⟨(left : Int), (top : Int), oval_template.width, oval_template.height⟩
  match (search_offset_pairs maximum_search_distance).foldl
      (score_step img oval_template threshold left top) (some none) with
  | none => none
  | some none => some none
  | some (some (best_match_score, best_match_bounds, best_match_diff)) =>
    let source_image := crop_image img best_match_bounds.left.toNat
      best_match_bounds.top.toNat best_match_bounds.width best_match_bounds.height
    let binarized_source_image := threshold_image source_image threshold
    let diff_image := diff oval_template binarized_source_image
    let fill_score := ratio diff_image BLACK
    some (some
      { location
        match_score := best_match_score
        fill_score
        original_bounds
        matched_bounds := best_match_bounds
        source_image
        binarized_source_image
        match_diff_image := best_match_diff
        fill_diff_image := diff_image })

/-! ## Theorems -/

/-- The add loop exits only at a nonnegative angle. -/
theorem add_pi_loop_nonneg (angle : ℚ) : 0 ≤ add_pi_loop angle := by
  induction angle using add_pi_loop.induct with
  | case1 a h ih =>
    rw [add_pi_loop, if_pos h]
    exact ih
  | case2 a h =>
    rw [add_pi_loop, if_neg h]
    exact le_of_not_lt h

/-- The subtract loop exits only strictly below `π`. -/
theorem sub_pi_loop_lt (angle : ℚ) : sub_pi_loop angle < PI_F32 := by
  induction angle using sub_pi_loop.induct with
  | case1 a h ih =>
    rw [sub_pi_loop, if_pos h]
    exact ih
  | case2 a h =>
    rw [sub_pi_loop, if_neg h]
    exact lt_of_not_le h

/-- The subtract loop preserves nonnegativity. -/
theorem sub_pi_loop_nonneg (angle : ℚ) (h : 0 ≤ angle) : 0 ≤ sub_pi_loop angle := by
  induction angle using sub_pi_loop.induct with
  | case1 a ha ih =>
    rw [sub_pi_loop, if_pos ha]
    have hpi : (0 : ℚ) < PI_F32 := by norm_num [PI_F32]
    exact ih (by linarith)
  | case2 a ha =>
    rw [sub_pi_loop, if_neg ha]
    exact h

/-- C10: for every finite f32 input `a`, `normalize_angle a` is a finite
value in the half-open interval `[0, π)` (with `π` the f32 constant), and
NaN or infinite inputs are returned unchanged. -/
theorem c10_normalize_angle_range :
    (∀ a : ℚ, ∃ r : ℚ,
      normalize_angle (.finite a) = .finite r ∧ 0 ≤ r ∧ r < PI_F32)
    ∧ normalize_angle .nan = .nan
    ∧ (∀ b : Bool, normalize_angle (.inf b) = .inf b) := by
  refine ⟨fun a => ⟨_, rfl, ?_, ?_⟩, rfl, fun b => rfl⟩
  · exact sub_pi_loop_nonneg _ (add_pi_loop_nonneg _)
  · exact sub_pi_loop_lt _

/-- Every pixel of `diff a a` equals 255. -/
theorem diff_self_pixel (a : GrayImage) (x y : Nat) :
    (diff a a).pixel x y = WHITE := by
  simp [diff]

/-- `count_pixels` counts every pixel when all pixels match the luma. -/
theorem count_pixels_all (img : GrayImage) (luma : Nat)
    (h : ∀ x y, img.pixel x y = luma) :
    count_pixels img luma = img.width * img.height := by
  unfold count_pixels
  have hrow : ∀ x : Nat,
      ((List.range img.height).filter (fun y => img.pixel x y = luma)).length
        = img.height := by
    intro x
    rw [List.filter_eq_self.mpr]
    · exact List.length_range _
    · intro y _
      simp [h]
  simp only [hrow]
  rw [List.map_const', List.sum_replicate, List.length_range, smul_eq_mul]

/-- The empty (0-by-0) grayscale image. -/
def c9_img_empty : GrayImage := ⟨0, 0, fun _ _ => 0⟩

/-- C9 counterexample: on the empty image, `ratio (diff a a) WHITE` is not
`1.0` (the Rust code divides zero matching pixels by zero total pixels,
producing NaN; the rational model produces `0`; both differ from `1`). -/
theorem c9_empty_image_counterexample :
    ¬ ratio (diff c9_img_empty c9_img_empty) WHITE = 1 := by
  norm_num [ratio, count_pixels, diff, c9_img_empty]

/-- C9 amended: for every grayscale image `a`, `diff a a` is all-WHITE,
and for every image with at least one pixel
`ratio (diff a a) WHITE = 1`. -/
theorem c9_diff_self_white (a : GrayImage) :
    (∀ x, x < a.width → ∀ y, y < a.height → (diff a a).pixel x y = WHITE)
    ∧ (0 < a.width * a.height → ratio (diff a a) WHITE = 1) := by
  constructor
  · intro x _ y _
    exact diff_self_pixel a x y
  · intro hpos
    unfold ratio
    rw [count_pixels_all _ _ (fun x y => diff_self_pixel a x y)]
    have hne : (((diff a a).width * (diff a a).height : Nat) : ℚ) ≠ 0 :=
      Nat.cast_ne_zero.mpr hpos.ne'
    exact div_self hne

/-- A 1-by-1 grayscale image. -/
def c9_img_one : GrayImage := ⟨1, 1, fun _ _ => 7⟩

/-- Witness for the amended C9 theorem at a concrete 1-by-1 image. -/
theorem c9_diff_self_white_witness :
    (diff c9_img_one c9_img_one).pixel 0 0 = WHITE
    ∧ ratio (diff c9_img_one c9_img_one) WHITE = 1 :=
  ⟨(c9_diff_self_white c9_img_one).1 0 (by decide) 0 (by decide),
   (c9_diff_self_white c9_img_one).2 (by decide)⟩

/-- A candidate rectangle whose left edge (900) lies right of the vertical
midline of the Letter canvas (1696 / 2 = 848) but left of half the canvas
height (2200 / 2 = 1100). -/
def c6_rect : Rect := ⟨900, 0, 10, 10⟩

/-- C6: the code pools `c6_rect` into the left half-plane pool (and not
the right one) although its left edge lies at or right of the vertical
midline `canvas_width / 2`, because the source compares `r.left()` against
`half_height = canvas_size.height / 2` instead of half the canvas width
(src/src/timing_marks.rs lines 166-175). -/
theorem c6_left_pool_uses_half_height :
    left_half_rects get_scanned_ballot_card_geometry_8pt5x11 [c6_rect] = [c6_rect]
    ∧ right_half_rects get_scanned_ballot_card_geometry_8pt5x11 [c6_rect] = []
    ∧ ((get_scanned_ballot_card_geometry_8pt5x11.canvas_size.width / 2 : Nat) : Int)
        ≤ c6_rect.left := by decide

/-- The reversed shift-and-add fold computes the little-endian value. -/
theorem fold_bits_rev_eq_le_value (l : List Bool) : fold_bits_rev l = le_value l := by
  unfold fold_bits_rev le_value
  rw [List.foldl_reverse]
  induction l with
  | nil => rfl
  | cons b t ih =>
    simp only [List.foldr_cons, ih]
    cases b <;> simp <;> omega

/-- Summing the 0/1 indicator over a bit slice computes its popcount. -/
theorem sum_map_ite_eq_popcount (l : List Bool) :
    (l.map (fun bit => if bit then 1 else 0)).sum = popcount l := by
  unfold popcount
  induction l with
  | nil => rfl
  | cons b t ih => cases b <;> simp [ih, List.count_cons, Nat.add_comm]

/-- C2: front decoding succeeds iff the popcount of bits 2..31 mod 4
equals the 2-bit little-endian value of bits 0..1 and bit 31 is set; on
success the returned struct carries the little-endian field values
described by the spec. -/
theorem c2_decode_front_characterization (bits : List Bool)
    (hlen : bits.length = 32) :
    ((∃ m, decode_front_metadata_from_bits bits = .ok m) ↔
      (popcount (bits.drop 2) % 4 = le_value (bits.take 2)
        ∧ bits.getD 31 false = true))
    ∧ (∀ m, decode_front_metadata_from_bits bits = .ok m →
        m.batch_or_precinct_number = le_value ((bits.drop 2).take 13)
        ∧ m.card_number = le_value ((bits.drop 15).take 13)
        ∧ m.sequence_number = le_value ((bits.drop 28).take 3)
        ∧ m.start_bit = (if bits.getD 31 false then 1 else 0)
        ∧ m.bits = bits) := by
  by_cases hc : popcount (bits.drop 2) % 4 = le_value (bits.take 2)
    <;> by_cases hb : bits.getD 31 false = true
  · have heq : decode_front_metadata_from_bits bits =
        .ok { bits := bits
              mod_4_checksum := le_value (bits.take 2)
              computed_mod_4_checksum := popcount (bits.drop 2) % 4
              batch_or_precinct_number := le_value ((bits.drop 2).take 13)
              card_number := le_value ((bits.drop 15).take 13)
              sequence_number := le_value ((bits.drop 28).take 3)
              start_bit := 1 } := by
      simp only [decode_front_metadata_from_bits, sum_map_ite_eq_popcount,
        fold_bits_rev_eq_le_value, hc, hb]
      simp
    refine ⟨⟨fun _ => ⟨hc, hb⟩, fun _ => ⟨_, heq⟩⟩, ?_⟩
    intro m hm
    rw [heq] at hm
    injection hm with hrec
    rw [← hrec]
    exact ⟨rfl, rfl, rfl, by rw [hb]; rfl, rfl⟩
  · have hfail : ∀ m, ¬ decode_front_metadata_from_bits bits = .ok m := by
      intro m
      have hb' : bits.getD 31 false = false := by
        rcases h : bits.getD 31 false with _ | _
        · rfl
        · exact absurd h hb
      simp only [decode_front_metadata_from_bits, sum_map_ite_eq_popcount,
        fold_bits_rev_eq_le_value, hc, hb']
      simp
    exact ⟨⟨fun ⟨m, hm⟩ => absurd hm (hfail m), fun ⟨_, hb'⟩ => absurd hb' hb⟩,
      fun m hm => absurd hm (hfail m)⟩
  · have hfail : ∀ m, ¬ decode_front_metadata_from_bits bits = .ok m := by
      intro m
      simp only [decode_front_metadata_from_bits, sum_map_ite_eq_popcount,
        fold_bits_rev_eq_le_value]
      simp [hc]
    exact ⟨⟨fun ⟨m, hm⟩ => absurd hm (hfail m), fun ⟨hc', _⟩ => absurd hc' hc⟩,
      fun m hm => absurd hm (hfail m)⟩
  · have hfail : ∀ m, ¬ decode_front_metadata_from_bits bits = .ok m := by
      intro m
      simp only [decode_front_metadata_from_bits, sum_map_ite_eq_popcount,
        fold_bits_rev_eq_le_value]
      simp [hc]
    exact ⟨⟨fun ⟨m, hm⟩ => absurd hm (hfail m), fun ⟨hc', _⟩ => absurd hc' hc⟩,
      fun m hm => absurd hm (hfail m)⟩

/-- A bit pattern accepted by the front decoder: bit 0 and bit 31 set,
everything else clear (popcount of bits 2..31 is 1, so is the stored
checksum). -/
def c2_bits : List Bool := true :: (List.replicate 30 false ++ [true])

/-- Witness for the C2 characterization at a concrete accepted pattern. -/
theorem c2_witness :
    c2_bits.length = 32
    ∧ (popcount (c2_bits.drop 2) % 4 = le_value (c2_bits.take 2)
        ∧ c2_bits.getD 31 false = true)
    ∧ (∃ m, decode_front_metadata_from_bits c2_bits = .ok m) :=
  ⟨by decide, by decide,
   ((c2_decode_front_characterization c2_bits (by decide)).1).mpr (by decide)⟩

/-- A successful front decoding forces bit 31 to be set (the start bit
check). -/
theorem decode_front_ok_bit31 {bits : List Bool} {f : BallotPageMetadataFront}
    (h : decode_front_metadata_from_bits bits = .ok f) :
    bits.getD 31 false = true := by
  simp only [decode_front_metadata_from_bits] at h
  split_ifs at h with h1 h2 h3 h4
  all_goals first
    | assumption
    | simp_all

/-- A successful back decoding forces bit 31 to be clear (the last ender
code bit is 0). -/
theorem decode_back_ok_bit31 {bits : List Bool} {b : BallotPageMetadataBack}
    (h : decode_back_metadata_from_bits bits = .ok b) :
    bits.getD 31 false = false := by
  simp only [decode_back_metadata_from_bits] at h
  split_ifs at h with h1
  have hs : (bits.drop 21).take 11 = ENDER_CODE := not_ne_iff.mp h1
  have hlen : 32 ≤ bits.length := by
    have hl := congrArg List.length hs
    simp [ENDER_CODE] at hl
    omega
  have h10 : ((bits.drop 21).take 11)[10]? = some false := by
    rw [hs]
    rfl
  rw [List.getElem?_take] at h10
  simp only [List.getElem?_drop] at h10
  norm_num at h10
  rw [List.getD_eq_getElem?_getD, h10]
  rfl

/-- Front and back decoding can never both succeed on the same bits. -/
theorem front_back_not_both_ok {bits : List Bool} {f : BallotPageMetadataFront}
    {b : BallotPageMetadataBack}
    (hf : decode_front_metadata_from_bits bits = .ok f)
    (hb : decode_back_metadata_from_bits bits = .ok b) : False := by
  have h1 := decode_front_ok_bit31 hf
  have h2 := decode_back_ok_bit31 hb
  rw [h1] at h2
  simp at h2

/-- `compute_bits_from_bottom_timing_marks` only fails with
`InvalidTimingMarkCount`. -/
theorem compute_bits_error_shape {p c : List Rect} {e : BallotPageMetadataError}
    (h : compute_bits_from_bottom_timing_marks p c = .error e) :
    ∃ expected actual, e = .invalidTimingMarkCount expected actual := by
  unfold compute_bits_from_bottom_timing_marks at h
  split_ifs at h
  all_goals first
    | (injection h with h'; exact ⟨_, _, h'.symm⟩)
    | (exact absurd h (by simp))

/-- Front decoding only fails with `InvalidChecksum` or
`ValueOutOfRange`. -/
theorem decode_front_error_shape {bits : List Bool} {e : BallotPageMetadataError}
    (h : decode_front_metadata_from_bits bits = .error e) :
    (∃ m, e = .invalidChecksum m)
    ∨ (∃ fi v mn mx m, e = .valueOutOfRange fi v mn mx m) := by
  simp only [decode_front_metadata_from_bits] at h
  split_ifs at h
  all_goals first
    | (injection h with h'; exact Or.inl ⟨_, h'.symm⟩)
    | (injection h with h'; exact Or.inr ⟨_, _, _, _, _, h'.symm⟩)
    | (exact absurd h (by simp))

/-- Recognizer for the `AmbiguousMetadata` error outcome. -/
def is_ambiguous_metadata_error :
    Except BallotPageMetadataError BallotPageMetadata → Bool
  | .error (.ambiguousMetadata _ _) => true
  | _ => false

/-- C8: the front and back decoders can never both succeed on the same 32
bits (the front start-bit check needs bit 31 set, the back ender code
needs it clear), so `decode_metadata_from_timing_marks` can never return
the `AmbiguousMetadata` error. -/
theorem c8_ambiguous_unreachable :
    (∀ bits : List Bool,
      (decode_front_metadata_from_bits bits).isOk = false
      ∨ (decode_back_metadata_from_bits bits).isOk = false)
    ∧ (∀ (p : PartialTimingMarks) (c : CompleteTimingMarks),
        is_ambiguous_metadata_error (decode_metadata_from_timing_marks p c) = false) := by
  constructor
  · intro bits
    rcases hf : decode_front_metadata_from_bits bits with ef | f
    · exact Or.inl rfl
    · rcases hbk : decode_back_metadata_from_bits bits with eb | b
      · exact Or.inr rfl
      · exact (front_back_not_both_ok hf hbk).elim
  · intro p c
    unfold decode_metadata_from_timing_marks
    rcases hcb : compute_bits_from_bottom_timing_marks p.bottom_rects c.bottom_rects
      with e | bits
    · obtain ⟨expected, actual, he⟩ := compute_bits_error_shape hcb
      subst he
      rfl
    · rcases hf : decode_front_metadata_from_bits bits with ef | f
        <;> rcases hbk : decode_back_metadata_from_bits bits with eb | b
      · rcases decode_front_error_shape hf with ⟨m, he⟩ | ⟨fi, v, mn, mx, m, he⟩
          <;> subst he <;> simp only [hf, hbk] <;> rfl
      · simp only [hf, hbk]
        rfl
      · simp only [hf, hbk]
        rfl
      · exact (front_back_not_both_ok hf hbk).elim

/-- Decidable equality for `Except`, used to evaluate the decoders on
concrete inputs. -/
instance {e a : Type} [DecidableEq e] [DecidableEq a] :
    DecidableEq (Except e a) := fun x y =>
  match x, y with
  | .error u, .error v =>
    if h : u = v then isTrue (by rw [h]) else isFalse (by simp [h])
  | .ok u, .ok v =>
    if h : u = v then isTrue (by rw [h]) else isFalse (by simp [h])
  | .error _, .ok _ => isFalse (by simp)
  | .ok _, .error _ => isFalse (by simp)

/-- C1: when the bottom-row bits decode, `decode_metadata_from_timing_marks`
decodes them both as front and as back metadata, returns the decoding that
validates, returns `AmbiguousMetadata` when both validate, and returns the
front decoding's error when neither validates. -/
theorem c1_decode_metadata_dispatch (p : PartialTimingMarks)
    (c : CompleteTimingMarks) (bits : List Bool)
    (hbits : compute_bits_from_bottom_timing_marks p.bottom_rects c.bottom_rects
      = .ok bits) :
    (∀ f b, decode_front_metadata_from_bits bits = .ok f →
        decode_back_metadata_from_bits bits = .ok b →
        decode_metadata_from_timing_marks p c = .error (.ambiguousMetadata f b))
    ∧ (∀ f eb, decode_front_metadata_from_bits bits = .ok f →
        decode_back_metadata_from_bits bits = .error eb →
        decode_metadata_from_timing_marks p c = .ok (.front f))
    ∧ (∀ ef b, decode_front_metadata_from_bits bits = .error ef →
        decode_back_metadata_from_bits bits = .ok b →
        decode_metadata_from_timing_marks p c = .ok (.back b))
    ∧ (∀ ef eb, decode_front_metadata_from_bits bits = .error ef →
        decode_back_metadata_from_bits bits = .error eb →
        decode_metadata_from_timing_marks p c = .error ef) := by
  refine ⟨fun f b hf hbk => ?_, fun f eb hf hbk => ?_,
    fun ef b hf hbk => ?_, fun ef eb hf hbk => ?_⟩
    <;> unfold decode_metadata_from_timing_marks
    <;> simp only [hbits, hf, hbk]

/-- The 34 bottom-row rects used by the C1 witness. -/
def c1_rects : List Rect := (List.range 34).map (fun i => ⟨(i : Int), 0, 1, 1⟩)

/-- A partial timing-mark frame whose bottom row coincides with the
complete bottom row, so every decoded bit is 1. -/
def c1_partial_frame : PartialTimingMarks :=
  { geometry := get_scanned_ballot_card_geometry_8pt5x11
    top_left_corner := ⟨0, 0⟩
    top_right_corner := ⟨0, 0⟩
    bottom_left_corner := ⟨0, 0⟩
    bottom_right_corner := ⟨0, 0⟩
    top_rects := []
    bottom_rects := c1_rects
    left_rects := []
    right_rects := []
    top_left_rect := none
    top_right_rect := none
    bottom_left_rect := none
    bottom_right_rect := none }

/-- The complete frame paired with `c1_partial_frame`. -/
def c1_complete : CompleteTimingMarks :=
  { geometry := get_scanned_ballot_card_geometry_8pt5x11
    top_left_corner := ⟨0, 0⟩
    top_right_corner := ⟨0, 0⟩
    bottom_left_corner := ⟨0, 0⟩
    bottom_right_corner := ⟨0, 0⟩
    top_rects := []
    bottom_rects := c1_rects
    left_rects := []
    right_rects := []
    top_left_rect := ⟨0, 0, 1, 1⟩
    top_right_rect := ⟨0, 0, 1, 1⟩
    bottom_left_rect := ⟨0, 0, 1, 1⟩
    bottom_right_rect := ⟨0, 0, 1, 1⟩ }

/-- Witness for C1: the all-ones bit pattern decodes as neither front
(checksum 2 vs stored 3) nor back (all-ones ender code), and the dispatch
returns the front error. -/
theorem c1_witness :
    compute_bits_from_bottom_timing_marks c1_partial_frame.bottom_rects
      c1_complete.bottom_rects = .ok (List.replicate 32 true)
    ∧ decode_metadata_from_timing_marks c1_partial_frame c1_complete
      = .error (.invalidChecksum
          { bits := List.replicate 32 true
            mod_4_checksum := 3
            computed_mod_4_checksum := 2
            batch_or_precinct_number := 8191
            card_number := 8191
            sequence_number := 7
            start_bit := 1 }) :=
  ⟨by decide,
   (c1_decode_metadata_dispatch c1_partial_frame c1_complete (List.replicate 32 true)
      (by decide)).2.2.2
     (.invalidChecksum
        { bits := List.replicate 32 true
          mod_4_checksum := 3
          computed_mod_4_checksum := 2
          batch_or_precinct_number := 8191
          card_number := 8191
          sequence_number := 7
          start_bit := 1 })
     (.invalidEnderCode
        { bits := List.replicate 32 true
          election_day := 31
          election_month := 15
          election_year := 127
          election_type := 31
          ender_code := List.replicate 11 true
          expected_ender_code := ENDER_CODE })
     (by decide) (by decide)⟩

/-- A list indexes to `none` exactly where its drop is empty. -/
theorem getElem?_of_drop_eq_nil {α : Type} {l : List α} {i : Nat}
    (h : l.drop i = []) : l[i]? = none := by
  rw [← List.head?_drop, h]
  rfl

/-- A nonempty drop determines the index lookup and the next drop. -/
theorem getElem?_of_drop_eq_cons {α : Type} {l : List α} {i : Nat} {a : α}
    {t : List α} (h : l.drop i = a :: t) :
    l[i]? = some a ∧ l.drop (i + 1) = t := by
  constructor
  · rw [← List.head?_drop, h]
    rfl
  · rw [← List.tail_drop, h]
    rfl

/-- The spec-side right-to-left index agrees with indexing into the
reversed list with its first element dropped. -/
theorem nth_from_right_eq (l : List Rect) (k : Nat) :
    nth_from_right l k = (l.reverse.drop 1)[k]? := by
  unfold nth_from_right
  rw [List.getElem?_drop]
  by_cases h : k + 2 ≤ l.length
  · rw [if_pos h, List.getElem?_reverse (by omega)]
    congr 1
    omega
  · rw [if_neg h]
    exact (List.getElem?_eq_none (by simp; omega)).symm

/-- Once the partial cursor has run out, every remaining spec bit is
`false`. -/
theorem spec_bits_go_none (c p : List Rect) (j : Nat)
    (hj : nth_from_right p j = none) :
    ∀ (n i : Nat), spec_bits_go c p i j n = List.replicate n false := by
  intro n
  induction n with
  | zero => intro i; rfl
  | succ n ih =>
    intro i
    cases hci : nth_from_right c i
      <;> simp only [spec_bits_go, hci, hj, List.replicate_succ]
      <;> exact List.cons_eq_cons.mpr ⟨rfl, ih (i + 1)⟩

/-- The spec walk produces exactly `n` bits. -/
theorem spec_bits_go_length (c p : List Rect) :
    ∀ (n i j : Nat), (spec_bits_go c p i j n).length = n := by
  intro n
  induction n with
  | zero => intro i j; rfl
  | succ n ih =>
    intro i j
    cases hci : nth_from_right c i <;> cases hpj : nth_from_right p j
      <;> simp only [spec_bits_go, hci, hpj]
    · simp [ih]
    · simp [ih]
    · simp [ih]
    · split_ifs <;> simp [ih]

/-- The iterator walk of `compute_bits_go` agrees with the spec-side
indexed walk, at every pair of cursors. -/
theorem compute_bits_go_eq_spec (c p : List Rect) :
    ∀ (n i j : Nat),
      compute_bits_go ((c.reverse.drop 1).drop i) ((p.reverse.drop 1).drop j) n
        = spec_bits_go c p i j n := by
  intro n
  induction n with
  | zero => intro i j; simp [compute_bits_go, spec_bits_go]
  | succ n ih =>
    intro i j
    rcases hdc : (c.reverse.drop 1).drop i with _ | ⟨cr, cs⟩
    · have hcn : nth_from_right c i = none := by
        rw [nth_from_right_eq]
        exact getElem?_of_drop_eq_nil hdc
      have hdc' : (c.reverse.drop 1).drop (i + 1) = [] := by
        rw [← List.tail_drop, hdc]
        rfl
      cases hpj : nth_from_right p j
        <;> simp only [compute_bits_go, spec_bits_go, hcn, hpj]
        <;> refine List.cons_eq_cons.mpr ⟨rfl, ?_⟩
        <;> rw [← ih (i + 1) j, hdc']
        <;> cases (p.reverse.drop 1).drop j <;> rfl
    · obtain ⟨hcsome, hcs⟩ := getElem?_of_drop_eq_cons hdc
      have hcn : nth_from_right c i = some cr := by
        rw [nth_from_right_eq]; exact hcsome
      rcases hdp : (p.reverse.drop 1).drop j with _ | ⟨pr, ps⟩
      · have hpn : nth_from_right p j = none := by
          rw [nth_from_right_eq]
          exact getElem?_of_drop_eq_nil hdp
        simp only [compute_bits_go, spec_bits_go, hcn, hpn]
        refine List.cons_eq_cons.mpr ⟨rfl, ?_⟩
        rw [← ih (i + 1) j, hcs, hdp]
      · obtain ⟨hpsome, hps⟩ := getElem?_of_drop_eq_cons hdp
        have hpn : nth_from_right p j = some pr := by
          rw [nth_from_right_eq]; exact hpsome
        by_cases he : cr = pr
        · rcases hpsnil : ps with _ | ⟨pr2, ps2⟩
          · have hjn : nth_from_right p (j + 1) = none := by
              rw [nth_from_right_eq]
              exact getElem?_of_drop_eq_nil (by rw [hps, hpsnil])
            simp only [compute_bits_go, spec_bits_go, hcn, hpn, if_pos he]
            refine List.cons_eq_cons.mpr ⟨rfl, ?_⟩
            exact (spec_bits_go_none c p (j + 1) hjn n (i + 1)).symm
          · simp only [compute_bits_go, spec_bits_go, hcn, hpn, if_pos he]
            refine List.cons_eq_cons.mpr ⟨rfl, ?_⟩
            rw [← ih (i + 1) (j + 1), hcs, hps, hpsnil]
        · simp only [compute_bits_go, spec_bits_go, hcn, hpn, if_neg he]
          refine List.cons_eq_cons.mpr ⟨rfl, ?_⟩
          rw [← ih (i + 1) j, hcs, hdp]

/-- C3: `compute_bits_from_bottom_timing_marks` returns 32 bits given by
the right-to-left walk that skips the rightmost mark of each list, sets
bit `i` iff the `i`-th completed rect equals the next still-unmatched
partial rect (advancing the partial cursor on each match), and fails with
`InvalidTimingMarkCount` exactly when the completed count is not 34 or the
partial count is below 2. -/
theorem c3_compute_bits_characterization (p c : List Rect) :
    (spec_bottom_row_bits c p).length = 32
    ∧ (c.length = 34 → 2 ≤ p.length →
        compute_bits_from_bottom_timing_marks p c = .ok (spec_bottom_row_bits c p))
    ∧ (c.length ≠ 34 →
        compute_bits_from_bottom_timing_marks p c
          = .error (.invalidTimingMarkCount 34 c.length))
    ∧ (c.length = 34 → p.length < 2 →
        compute_bits_from_bottom_timing_marks p c
          = .error (.invalidTimingMarkCount 2 p.length)) := by
  refine ⟨spec_bits_go_length c p 32 0 0, ?_, ?_, ?_⟩
  · intro hc hp
    unfold compute_bits_from_bottom_timing_marks
    rw [if_neg (by omega), if_neg (by omega)]
    have h := compute_bits_go_eq_spec c p 32 0 0
    simp only [List.drop_zero] at h
    rw [METADATA_BITS, h]
    rfl
  · intro hc
    unfold compute_bits_from_bottom_timing_marks
    rw [if_pos hc]
  · intro hc hp
    unfold compute_bits_from_bottom_timing_marks
    rw [if_neg (by omega), if_pos hp]

/-- The 34 complete bottom-row rects of the C3 witness. -/
def c3_complete_rects : List Rect := (List.range 34).map (fun i => ⟨(i : Int), 1, 1, 1⟩)

/-- Two partial bottom-row rects: one interior mark plus the rightmost
mark (which the walk skips). -/
def c3_partial_rects : List Rect := [⟨5, 1, 1, 1⟩, ⟨33, 1, 1, 1⟩]

/-- Witness for C3 at a concrete pair of mark lists. -/
theorem c3_witness :
    c3_complete_rects.length = 34 ∧ 2 ≤ c3_partial_rects.length
    ∧ compute_bits_from_bottom_timing_marks c3_partial_rects c3_complete_rects
      = .ok (spec_bottom_row_bits c3_complete_rects c3_partial_rects) :=
  ⟨by decide, by decide,
   (c3_compute_bits_characterization c3_partial_rects c3_complete_rects).2.1
     (by decide) (by decide)⟩

/-- An unbounded line intersection is `none` exactly when the denominator
vanishes. -/
theorem intersection_unbounded_none_iff (segment1 segment2 : Segment) :
    intersection_of_lines segment1 segment2 false = none
      ↔ intersection_denominator segment1 segment2 = 0 := by
  simp only [intersection_of_lines]
  split_ifs with h1 h2
  · simp [h1]
  · simp [h1]
  · simp at h2

/-- C5 (amended): `grid.get` returns `none` iff the indices are out of
range, a side list lacks the indexed element, or the two center segments
have a vanishing intersection denominator; a returned point is the
unbounded intersection of the segments through the centers of the row's
left/right marks and the column's top/bottom marks. -/
theorem c5_grid_get_characterization (grid : TimingMarkGrid) (column row : Nat) :
    (grid.get column row = none ↔
      (grid.geometry.grid_size.width ≤ column
        ∨ grid.geometry.grid_size.height ≤ row
        ∨ grid.complete_timing_marks.left_rects[row]? = none
        ∨ grid.complete_timing_marks.right_rects[row]? = none
        ∨ grid.complete_timing_marks.top_rects[column]? = none
        ∨ grid.complete_timing_marks.bottom_rects[column]? = none
        ∨ (∀ lt rt tp bt,
            grid.complete_timing_marks.left_rects[row]? = some lt →
            grid.complete_timing_marks.right_rects[row]? = some rt →
            grid.complete_timing_marks.top_rects[column]? = some tp →
            grid.complete_timing_marks.bottom_rects[column]? = some bt →
            intersection_denominator ⟨center_of_rect lt, center_of_rect rt⟩
              ⟨center_of_rect tp, center_of_rect bt⟩ = 0)))
    ∧ (∀ pt, grid.get column row = some pt →
        column < grid.geometry.grid_size.width
        ∧ row < grid.geometry.grid_size.height
        ∧ ∃ lt rt tp bt,
            grid.complete_timing_marks.left_rects[row]? = some lt
            ∧ grid.complete_timing_marks.right_rects[row]? = some rt
            ∧ grid.complete_timing_marks.top_rects[column]? = some tp
            ∧ grid.complete_timing_marks.bottom_rects[column]? = some bt
            ∧ intersection_of_lines ⟨center_of_rect lt, center_of_rect rt⟩
                ⟨center_of_rect tp, center_of_rect bt⟩ false = some pt) := by
  by_cases hb : grid.geometry.grid_size.width ≤ column
      ∨ grid.geometry.grid_size.height ≤ row
  · constructor
    · constructor
      · intro _
        rcases hb with h | h
        · exact Or.inl h
        · exact Or.inr (Or.inl h)
      · intro _
        simp [TimingMarkGrid.get, hb]
    · intro pt hpt
      simp [TimingMarkGrid.get, hb] at hpt
  · rcases hlt : grid.complete_timing_marks.left_rects[row]? with _ | lt
    · constructor
      · constructor
        · intro _
          exact Or.inr (Or.inr (Or.inl rfl))
        · intro _
          simp [TimingMarkGrid.get, hb, hlt]
      · intro pt hpt
        simp [TimingMarkGrid.get, hb, hlt] at hpt
    · rcases hrt : grid.complete_timing_marks.right_rects[row]? with _ | rt
      · constructor
        · constructor
          · intro _
            exact Or.inr (Or.inr (Or.inr (Or.inl rfl)))
          · intro _
            simp [TimingMarkGrid.get, hb, hlt, hrt]
        · intro pt hpt
          simp [TimingMarkGrid.get, hb, hlt, hrt] at hpt
      · rcases htp : grid.complete_timing_marks.top_rects[column]? with _ | tp
        · constructor
          · constructor
            · intro _
              exact Or.inr (Or.inr (Or.inr (Or.inr (Or.inl rfl))))
            · intro _
              simp [TimingMarkGrid.get, hb, hlt, hrt, htp]
          · intro pt hpt
            simp [TimingMarkGrid.get, hb, hlt, hrt, htp] at hpt
        · rcases hbt : grid.complete_timing_marks.bottom_rects[column]? with _ | bt
          · constructor
            · constructor
              · intro _
                exact Or.inr (Or.inr (Or.inr (Or.inr (Or.inr (Or.inl rfl)))))
              · intro _
                simp [TimingMarkGrid.get, hb, hlt, hrt, htp, hbt]
            · intro pt hpt
              simp [TimingMarkGrid.get, hb, hlt, hrt, htp, hbt] at hpt
          · have hget : grid.get column row
                = intersection_of_lines ⟨center_of_rect lt, center_of_rect rt⟩
                    ⟨center_of_rect tp, center_of_rect bt⟩ false := by
              simp [TimingMarkGrid.get, hb, hlt, hrt, htp, hbt]
            constructor
            · rw [hget, intersection_unbounded_none_iff]
              constructor
              · intro hd
                refine Or.inr (Or.inr (Or.inr (Or.inr (Or.inr (Or.inr ?_)))))
                intro lt' rt' tp' bt' h1 h2 h3 h4
                injection h1 with h1
                injection h2 with h2
                injection h3 with h3
                injection h4 with h4
                rw [← h1, ← h2, ← h3, ← h4]
                exact hd
              · rintro (h | h | h | h | h | h | h)
                · exact absurd (Or.inl h) hb
                · exact absurd (Or.inr h) hb
                · exact absurd h (by simp)
                · exact absurd h (by simp)
                · exact absurd h (by simp)
                · exact absurd h (by simp)
                · exact h lt rt tp bt rfl rfl rfl rfl
            · intro pt hpt
              rw [hget] at hpt
              exact ⟨by omega, by omega,
                lt, rt, tp, bt, rfl, rfl, rfl, rfl, hpt⟩

/-- A small geometry with a 1-by-1 grid, for the C5 concrete grids. -/
def c5_geometry : BallotCardGeometry :=
  { ballot_paper_size := .letter
    pixels_per_inch := 200
    canvas_size := ⟨100, 100⟩
    content_area := ⟨0, 0, 100, 100⟩
    oval_size := ⟨40, 26⟩
    timing_mark_size := ⟨75 / 2, 25 / 2⟩
    grid_size := ⟨1, 1⟩
    front_usable_area := ⟨0, 0, 1, 1⟩
    back_usable_area := ⟨0, 0, 1, 1⟩ }

/-- A grid whose four side marks coincide, so both center segments are
degenerate points and the intersection denominator vanishes. -/
def c5_grid_degenerate : TimingMarkGrid :=
  { geometry := c5_geometry
    complete_timing_marks :=
      { geometry := c5_geometry
        top_left_corner := ⟨0, 0⟩
        top_right_corner := ⟨0, 0⟩
        bottom_left_corner := ⟨0, 0⟩
        bottom_right_corner := ⟨0, 0⟩
        top_rects := [⟨0, 0, 1, 1⟩]
        bottom_rects := [⟨0, 0, 1, 1⟩]
        left_rects := [⟨0, 0, 1, 1⟩]
        right_rects := [⟨0, 0, 1, 1⟩]
        top_left_rect := ⟨0, 0, 1, 1⟩
        top_right_rect := ⟨0, 0, 1, 1⟩
        bottom_left_rect := ⟨0, 0, 1, 1⟩
        bottom_right_rect := ⟨0, 0, 1, 1⟩ } }

/-- C5 counterexample: on the degenerate grid, `get 0 0` is `none` even
though both indices are in range, so "none iff out of range" fails. -/
theorem c5_counterexample :
    ¬ (c5_grid_degenerate.get 0 0 = none ↔
      (c5_grid_degenerate.geometry.grid_size.width ≤ 0
        ∨ c5_grid_degenerate.geometry.grid_size.height ≤ 0)) := by
  intro h
  have hnone : c5_grid_degenerate.get 0 0 = none := by
    norm_num [TimingMarkGrid.get, c5_grid_degenerate, c5_geometry,
      intersection_of_lines, intersection_denominator, center_of_rect,
      Rect.right, Rect.bottom]
  rcases h.mp hnone with hh | hh
    <;> simp [c5_grid_degenerate, c5_geometry] at hh

/-- A well-formed 1-by-1 grid whose side-mark centers form a proper
cross. -/
def c5_grid : TimingMarkGrid :=
  { geometry := c5_geometry
    complete_timing_marks :=
      { geometry := c5_geometry
        top_left_corner := ⟨0, 0⟩
        top_right_corner := ⟨10, 0⟩
        bottom_left_corner := ⟨0, 10⟩
        bottom_right_corner := ⟨10, 10⟩
        top_rects := [⟨5, 0, 1, 1⟩]
        bottom_rects := [⟨5, 10, 1, 1⟩]
        left_rects := [⟨0, 5, 1, 1⟩]
        right_rects := [⟨10, 5, 1, 1⟩]
        top_left_rect := ⟨0, 0, 1, 1⟩
        top_right_rect := ⟨10, 0, 1, 1⟩
        bottom_left_rect := ⟨0, 10, 1, 1⟩
        bottom_right_rect := ⟨10, 10, 1, 1⟩ } }

/-- Witness for the amended C5 theorem: on `c5_grid`, `get 0 0` is the
intersection point `(5, 5)` of the two center segments. -/
theorem c5_witness :
    0 < c5_grid.geometry.grid_size.width
    ∧ 0 < c5_grid.geometry.grid_size.height
    ∧ ∃ lt rt tp bt,
        c5_grid.complete_timing_marks.left_rects[0]? = some lt
        ∧ c5_grid.complete_timing_marks.right_rects[0]? = some rt
        ∧ c5_grid.complete_timing_marks.top_rects[0]? = some tp
        ∧ c5_grid.complete_timing_marks.bottom_rects[0]? = some bt
        ∧ intersection_of_lines ⟨center_of_rect lt, center_of_rect rt⟩
            ⟨center_of_rect tp, center_of_rect bt⟩ false = some ⟨5, 5⟩ :=
  (c5_grid_get_characterization c5_grid 0 0).2 ⟨5, 5⟩ (by
    norm_num [TimingMarkGrid.get, c5_grid, c5_geometry,
      intersection_of_lines, intersection_denominator, center_of_rect,
      Rect.right, Rect.bottom])

/-- The inference loop emits exactly the requested number of marks. -/
theorem infer_go_length (timing_marks : List Rect) (next_point_vector : Point)
    (maximum_error : ℚ) (geometry : BallotCardGeometry) :
    ∀ (n : Nat) (current : Point),
      (infer_go timing_marks next_point_vector maximum_error geometry current n).length
        = n := by
  intro n
  induction n with
  | zero => intro current; rfl
  | succ n ih =>
    intro current
    simp only [infer_go]
    split_ifs <;> simp [ih]

/-- `infer_missing_timing_marks_on_segment` emits no marks on empty input
and exactly `expected_count` marks otherwise. -/
theorem infer_length (timing_marks : List Rect) (segment : Segment)
    (expected_distance : ℚ) (expected_count : Nat)
    (geometry : BallotCardGeometry) :
    (infer_missing_timing_marks_on_segment timing_marks segment expected_distance
        expected_count geometry).length
      = if timing_marks.isEmpty then 0 else expected_count := by
  unfold infer_missing_timing_marks_on_segment
  split_ifs with h <;> simp [infer_go_length]

/-- C4 (amended): when completion succeeds, each side holds exactly the
expected count of marks (grid width for top/bottom, grid height for
left/right) unless the corresponding partial side list was empty, in which
case it is empty; the top/bottom counts agree and the left/right counts
agree. -/
theorem c4_complete_frame_counts (ptm : PartialTimingMarks)
    (geometry : BallotCardGeometry) (ctm : CompleteTimingMarks)
    (h : find_complete_timing_marks_from_partial_timing_marks ptm geometry
      = some ctm) :
    ctm.top_rects.length
      = (if ptm.top_rects.isEmpty then 0 else geometry.grid_size.width)
    ∧ ctm.bottom_rects.length
      = (if ptm.bottom_rects.isEmpty then 0 else geometry.grid_size.width)
    ∧ ctm.left_rects.length
      = (if ptm.left_rects.isEmpty then 0 else geometry.grid_size.height)
    ∧ ctm.right_rects.length
      = (if ptm.right_rects.isEmpty then 0 else geometry.grid_size.height)
    ∧ ctm.top_rects.length = ctm.bottom_rects.length
    ∧ ctm.left_rects.length = ctm.right_rects.length := by
  unfold find_complete_timing_marks_from_partial_timing_marks at h
  split at h
  case _ tl tr bl br _ _ _ _ =>
    dsimp only at h
    split at h
    · exact absurd h (by simp)
    · split at h
      · exact absurd h (by simp)
      · rename_i hlen
        push_neg at hlen
        obtain ⟨hlen1, hlen2⟩ := hlen
        injection h with h
        subst h
        refine ⟨?_, ?_, ?_, ?_, hlen1, hlen2⟩ <;> rw [infer_length]
  case _ => exact absurd h (by simp)

/-- The single mark used by the C4 concrete frame. -/
def c4_rect : Rect := ⟨0, 0, 1, 1⟩

/-- A geometry with 34 grid columns and no grid rows, against which the
completion check is exercised. -/
def c4_geometry : BallotCardGeometry :=
  { ballot_paper_size := .letter
    pixels_per_inch := 200
    canvas_size := ⟨1696, 2200⟩
    content_area := ⟨0, 0, 1696, 2200⟩
    oval_size := ⟨40, 26⟩
    timing_mark_size := ⟨75 / 2, 25 / 2⟩
    grid_size := ⟨34, 0⟩
    front_usable_area := ⟨0, 0, 34, 0⟩
    back_usable_area := ⟨0, 0, 34, 0⟩ }

/-- A partial frame with all four corner rects, two stacked left marks
(providing a distance sample) and no top/bottom/right marks. -/
def c4_partial_frame : PartialTimingMarks :=
  { geometry := c4_geometry
    top_left_corner := ⟨0, 0⟩
    top_right_corner := ⟨1, 0⟩
    bottom_left_corner := ⟨0, 1⟩
    bottom_right_corner := ⟨1, 1⟩
    top_rects := []
    bottom_rects := []
    left_rects := [c4_rect, c4_rect]
    right_rects := []
    top_left_rect := some c4_rect
    top_right_rect := some c4_rect
    bottom_left_rect := some c4_rect
    bottom_right_rect := some c4_rect }

/-- The frame `find_complete_timing_marks_from_partial_timing_marks`
produces from `c4_partial_frame`: all four sides empty. -/
def c4_complete : CompleteTimingMarks :=
  { geometry := c4_geometry
    top_left_corner := ⟨0, 0⟩
    top_right_corner := ⟨1, 0⟩
    bottom_left_corner := ⟨0, 1⟩
    bottom_right_corner := ⟨1, 1⟩
    top_rects := []
    bottom_rects := []
    left_rects := []
    right_rects := []
    top_left_rect := c4_rect
    top_right_rect := c4_rect
    bottom_left_rect := c4_rect
    bottom_right_rect := c4_rect }

/-- C4 counterexample: completion succeeds on `c4_partial_frame` yet the top
side has 0 marks while the grid width is 34, because the final check only
compares top against bottom and left against right. -/
theorem c4_counterexample :
    find_complete_timing_marks_from_partial_timing_marks c4_partial_frame c4_geometry
      = some c4_complete
    ∧ c4_complete.top_rects.length = 0
    ∧ c4_geometry.grid_size.width = 34 := by
  refine ⟨?_, rfl, rfl⟩
  simp [find_complete_timing_marks_from_partial_timing_marks,
    infer_missing_timing_marks_on_segment, infer_go, distances_between_rects,
    sort_rationals, insert_sorted, c4_partial_frame, c4_geometry, c4_complete, c4_rect]

/-- Witness for the amended C4 theorem at the concrete frame. -/
theorem c4_witness :
    c4_complete.top_rects.length
      = (if c4_partial_frame.top_rects.isEmpty then 0 else c4_geometry.grid_size.width)
    ∧ c4_complete.bottom_rects.length
      = (if c4_partial_frame.bottom_rects.isEmpty then 0 else c4_geometry.grid_size.width)
    ∧ c4_complete.left_rects.length
      = (if c4_partial_frame.left_rects.isEmpty then 0 else c4_geometry.grid_size.height)
    ∧ c4_complete.right_rects.length
      = (if c4_partial_frame.right_rects.isEmpty then 0 else c4_geometry.grid_size.height)
    ∧ c4_complete.top_rects.length = c4_complete.bottom_rects.length
    ∧ c4_complete.left_rects.length = c4_complete.right_rects.length :=
  c4_complete_frame_counts c4_partial_frame c4_geometry c4_complete (by
    simp [find_complete_timing_marks_from_partial_timing_marks,
      infer_missing_timing_marks_on_segment, infer_go, distances_between_rects,
      sort_rationals, insert_sorted, c4_partial_frame, c4_geometry, c4_complete, c4_rect])

/-- Any member of the offset list lies in `[-d, d)`. -/
theorem mem_search_offsets {d : Nat} {x : Int} (h : x ∈ search_offsets d) :
    -(d : Int) ≤ x ∧ x < d := by
  unfold search_offsets at h
  rw [List.mem_map (f := fun k : Nat => (k : Int) - (d : Int))] at h
  obtain ⟨k, hk, rfl⟩ := h
  rw [List.mem_range] at hk
  omega

/-- Any member of the search offset pairs lies in `[-d, d)` in both
components. -/
theorem mem_search_offset_pairs {d : Nat} {q : Int × Int}
    (h : q ∈ search_offset_pairs d) :
    -(d : Int) ≤ q.1 ∧ q.1 < d ∧ -(d : Int) ≤ q.2 ∧ q.2 < d := by
  unfold search_offset_pairs at h
  rw [List.mem_flatMap] at h
  obtain ⟨ox, hox, hmem⟩ := h
  rw [List.mem_map] at hmem
  obtain ⟨oy, hoy, rfl⟩ := hmem
  have h1 := mem_search_offsets hox
  have h2 := mem_search_offsets hoy
  exact ⟨h1.1, h1.2, h2.1, h2.2⟩

/-- Reduction of the search body from the initial `none` accumulator. -/
theorem score_accum_none (img oval_template : GrayImage) (threshold left top : Nat)
    (q : Int × Int) :
    score_accum img oval_template threshold left top none q
      = some (offset_match_score img oval_template threshold left top q,
          offset_match_bounds oval_template left top q,
          offset_match_diff img oval_template threshold left top q) :=
  rfl

/-- Reduction of the search body from a `some` accumulator. -/
theorem score_accum_some (img oval_template : GrayImage) (threshold left top : Nat)
    (s0 : ℚ) (b0 : Rect) (d0 : GrayImage) (q : Int × Int) :
    score_accum img oval_template threshold left top (some (s0, b0, d0)) q
      = some (if s0 < offset_match_score img oval_template threshold left top q
          then (offset_match_score img oval_template threshold left top q,
            offset_match_bounds oval_template left top q,
            offset_match_diff img oval_template threshold left top q)
          else (s0, b0, d0)) := by
  unfold score_accum
  simp only [offset_match_score, offset_match_diff, offset_match_bounds]
  split_ifs with h <;> rfl

/-- An offset whose patch origin has a negative coordinate is skipped: the
loop iteration hands its accumulator back unchanged. -/
theorem score_step_skip (img oval_template : GrayImage) (threshold left top : Nat)
    (acc : Option (ℚ × Rect × GrayImage)) (q : Int × Int)
    (h : (left : Int) + q.1 < 0 ∨ (top : Int) + q.2 < 0) :
    score_step img oval_template threshold left top (some acc) q = some acc := by
  simp only [score_step]
  by_cases hx : (left : Int) + q.1 < 0
  · rw [if_pos hx]
  · rw [if_neg hx, if_pos (h.resolve_left hx)]

/-- A non-skipped offset whose view is in bounds is scored by the search
body. -/
theorem score_step_visited (img oval_template : GrayImage) (threshold left top : Nat)
    (acc : Option (ℚ × Rect × GrayImage)) (q : Int × Int)
    (hx : 0 ≤ (left : Int) + q.1) (hy : 0 ≤ (top : Int) + q.2)
    (hib : view_in_bounds img ((left : Int) + q.1).toNat ((top : Int) + q.2).toNat
      oval_template.width oval_template.height) :
    score_step img oval_template threshold left top (some acc) q
      = some (score_accum img oval_template threshold left top acc q) := by
  simp only [score_step]
  rw [if_neg (not_lt.mpr hx), if_neg (not_lt.mpr hy), if_pos hib]

/-- Invariant of the best-match fold from a `some` accumulator: the result
is the accumulator or an offset's triple, its score dominates the
accumulator and every folded offset. -/
theorem score_fold_from_some (img oval_template : GrayImage)
    (threshold left top : Nat) :
    ∀ (l : List (Int × Int)) (s0 : ℚ) (b0 : Rect) (d0 : GrayImage),
      ∃ t : ℚ × Rect × GrayImage,
        l.foldl (score_accum img oval_template threshold left top)
            (some (s0, b0, d0)) = some t
        ∧ (t = (s0, b0, d0) ∨ ∃ q ∈ l,
            t.1 = offset_match_score img oval_template threshold left top q
            ∧ t.2.1 = offset_match_bounds oval_template left top q
            ∧ t.2.2 = offset_match_diff img oval_template threshold left top q)
        ∧ s0 ≤ t.1
        ∧ ∀ q ∈ l, offset_match_score img oval_template threshold left top q ≤ t.1 := by
  intro l
  induction l with
  | nil =>
    intro s0 b0 d0
    exact ⟨(s0, b0, d0), rfl, Or.inl rfl, le_refl _, by simp⟩
  | cons q l' ih =>
    intro s0 b0 d0
    by_cases hlt : s0 < offset_match_score img oval_template threshold left top q
    · obtain ⟨t, hfold, hatt, hle, hall⟩ :=
        ih (offset_match_score img oval_template threshold left top q)
          (offset_match_bounds oval_template left top q)
          (offset_match_diff img oval_template threshold left top q)
      refine ⟨t, ?_, ?_, ?_, ?_⟩
      · rw [List.foldl_cons, score_accum_some img oval_template threshold left top
          s0 b0 d0 q, if_pos hlt]
        exact hfold
      · rcases hatt with heq | ⟨q', hq', hprops⟩
        · exact Or.inr ⟨q, List.mem_cons_self _ _,
            by rw [heq], by rw [heq], by rw [heq]⟩
        · exact Or.inr ⟨q', List.mem_cons_of_mem _ hq', hprops⟩
      · exact le_of_lt (lt_of_lt_of_le hlt hle)
      · intro r hr
        rcases List.mem_cons.mp hr with rfl | hm
        · exact hle
        · exact hall r hm
    · obtain ⟨t, hfold, hatt, hle, hall⟩ := ih s0 b0 d0
      refine ⟨t, ?_, ?_, ?_, ?_⟩
      · rw [List.foldl_cons, score_accum_some img oval_template threshold left top
          s0 b0 d0 q, if_neg hlt]
        exact hfold
      · rcases hatt with heq | ⟨q', hq', hprops⟩
        · exact Or.inl heq
        · exact Or.inr ⟨q', List.mem_cons_of_mem _ hq', hprops⟩
      · exact hle
      · intro r hr
        rcases List.mem_cons.mp hr with rfl | hm
        · exact le_trans (not_lt.mp hlt) hle
        · exact hall r hm

/-- The best-match fold over a nonempty offset list returns the
maximum-scoring offset's triple (the first one attaining the maximum). -/
theorem score_fold_from_none (img oval_template : GrayImage)
    (threshold left top : Nat) (l : List (Int × Int)) (hne : l ≠ []) :
    ∃ t : ℚ × Rect × GrayImage,
      l.foldl (score_accum img oval_template threshold left top) none = some t
      ∧ (∃ q ∈ l,
          t.1 = offset_match_score img oval_template threshold left top q
          ∧ t.2.1 = offset_match_bounds oval_template left top q
          ∧ t.2.2 = offset_match_diff img oval_template threshold left top q)
      ∧ ∀ q ∈ l, offset_match_score img oval_template threshold left top q ≤ t.1 := by
  rcases l with _ | ⟨q, l'⟩
  · exact absurd rfl hne
  · obtain ⟨t, hfold, hatt, hle, hall⟩ := score_fold_from_some img oval_template
      threshold left top l'
      (offset_match_score img oval_template threshold left top q)
      (offset_match_bounds oval_template left top q)
      (offset_match_diff img oval_template threshold left top q)
    refine ⟨t, ?_, ?_, ?_⟩
    · rw [List.foldl_cons, score_accum_none img oval_template threshold left top q]
      exact hfold
    · rcases hatt with heq | ⟨q', hq', hprops⟩
      · exact ⟨q, List.mem_cons_self _ _, by rw [heq], by rw [heq], by rw [heq]⟩
      · exact ⟨q', List.mem_cons_of_mem _ hq', hprops⟩
    · intro r hr
      rcases List.mem_cons.mp hr with rfl | hm
      · exact hle
      · exact hall r hm

/-- When every non-skipped view of an offset list is in bounds, the
panic-aware search fold completes and equals the plain best-match fold
over the list's non-skipped (visited) sublist. -/
theorem score_foldl_eq_filter (img oval_template : GrayImage)
    (threshold left top : Nat) :
    ∀ (l : List (Int × Int)) (acc : Option (ℚ × Rect × GrayImage)),
      (∀ q ∈ l, 0 ≤ (left : Int) + q.1 → 0 ≤ (top : Int) + q.2 →
        view_in_bounds img ((left : Int) + q.1).toNat ((top : Int) + q.2).toNat
          oval_template.width oval_template.height) →
      l.foldl (score_step img oval_template threshold left top) (some acc)
        = some ((l.filter (fun q => decide (0 ≤ (left : Int) + q.1)
            && decide (0 ≤ (top : Int) + q.2))).foldl
            (score_accum img oval_template threshold left top) acc) := by
  intro l
  induction l with
  | nil => intro acc _; rfl
  | cons q l' ih =>
    intro acc hb
    have hb' : ∀ r ∈ l', 0 ≤ (left : Int) + r.1 → 0 ≤ (top : Int) + r.2 →
        view_in_bounds img ((left : Int) + r.1).toNat ((top : Int) + r.2).toNat
          oval_template.width oval_template.height :=
      fun r hr => hb r (List.mem_cons_of_mem _ hr)
    by_cases hx : 0 ≤ (left : Int) + q.1
    · by_cases hy : 0 ≤ (top : Int) + q.2
      · have hib := hb q (List.mem_cons_self _ _) hx hy
        rw [List.foldl_cons,
          score_step_visited img oval_template threshold left top acc q hx hy hib,
          List.filter_cons_of_pos (by rw [decide_eq_true hx, decide_eq_true hy]; rfl),
          List.foldl_cons]
        exact ih (score_accum img oval_template threshold left top acc q) hb'
      · rw [List.foldl_cons,
          score_step_skip img oval_template threshold left top acc q
            (Or.inr (not_le.mp hy)),
          List.filter_cons_of_neg (by simp [hy])]
        exact ih acc hb'
    · rw [List.foldl_cons,
        score_step_skip img oval_template threshold left top acc q
          (Or.inl (not_le.mp hx)),
        List.filter_cons_of_neg (by simp [hx])]
      exact ih acc hb'

/-- The offset `(0, 0)` always passes both guards, so the visited sublist
of the default search square is never empty. -/
theorem visited_offset_pairs_ne_nil (left top : Nat) :
    visited_offset_pairs left top DEFAULT_MAXIMUM_SEARCH_DISTANCE ≠ [] := by
  have h0 : ((0 : Int), (0 : Int))
      ∈ visited_offset_pairs left top DEFAULT_MAXIMUM_SEARCH_DISTANCE := by
    unfold visited_offset_pairs
    rw [List.mem_filter]
    refine ⟨by decide, ?_⟩
    simp only [Bool.and_eq_true, decide_eq_true_eq]
    constructor <;> omega
  intro hnil
  rw [hnil] at h0
  exact absurd h0 (List.not_mem_nil _)

/-- Characterization of `score_oval_mark` with the default search distance
when no visited view panics: the call returns a mark whose match score is
the maximum visited offset match score, attained at its matched bounds,
with the fill score computed at those bounds. -/
theorem score_oval_mark_visited_max (img oval_template : GrayImage)
    (expected_oval_center : Point) (location : GridLocation) (threshold : Nat)
    (left top : Nat)
    (hleft : left = (round_away expected_oval_center.x).toNat - oval_template.width / 2)
    (htop : top = (round_away expected_oval_center.y).toNat - oval_template.height / 2)
    (hbounds : ∀ q ∈ visited_offset_pairs left top DEFAULT_MAXIMUM_SEARCH_DISTANCE,
      view_in_bounds img ((left : Int) + q.1).toNat ((top : Int) + q.2).toNat
        oval_template.width oval_template.height) :
    ∃ mark : ScoredOvalMark,
      score_oval_mark img oval_template expected_oval_center location
        DEFAULT_MAXIMUM_SEARCH_DISTANCE threshold = some (some mark)
      ∧ (∀ offset ∈ visited_offset_pairs left top DEFAULT_MAXIMUM_SEARCH_DISTANCE,
          offset_match_score img oval_template threshold left top offset
            ≤ mark.match_score)
      ∧ (∃ offset ∈ visited_offset_pairs left top DEFAULT_MAXIMUM_SEARCH_DISTANCE,
          mark.match_score
            = offset_match_score img oval_template threshold left top offset
          ∧ mark.matched_bounds = offset_match_bounds oval_template left top offset)
      ∧ mark.fill_score = ratio (diff oval_template (threshold_image
          (crop_image img mark.matched_bounds.left.toNat mark.matched_bounds.top.toNat
            mark.matched_bounds.width mark.matched_bounds.height) threshold)) BLACK := by
  subst hleft htop
  have hb : ∀ q ∈ search_offset_pairs DEFAULT_MAXIMUM_SEARCH_DISTANCE,
      0 ≤ (((round_away expected_oval_center.x).toNat - oval_template.width / 2 : Nat) : Int)
        + q.1 →
      0 ≤ (((round_away expected_oval_center.y).toNat - oval_template.height / 2 : Nat) : Int)
        + q.2 →
      view_in_bounds img
        ((((round_away expected_oval_center.x).toNat - oval_template.width / 2 : Nat) : Int)
          + q.1).toNat
        ((((round_away expected_oval_center.y).toNat - oval_template.height / 2 : Nat) : Int)
          + q.2).toNat
        oval_template.width oval_template.height := by
    intro q hq hx hy
    refine hbounds q ?_
    unfold visited_offset_pairs
    rw [List.mem_filter]
    exact ⟨hq, by rw [decide_eq_true hx, decide_eq_true hy]; rfl⟩
  have hbridge := score_foldl_eq_filter img oval_template threshold
    ((round_away expected_oval_center.x).toNat - oval_template.width / 2)
    ((round_away expected_oval_center.y).toNat - oval_template.height / 2)
    (search_offset_pairs DEFAULT_MAXIMUM_SEARCH_DISTANCE) none hb
  obtain ⟨t, hfold, hatt, hall⟩ := score_fold_from_none img oval_template threshold
    ((round_away expected_oval_center.x).toNat - oval_template.width / 2)
    ((round_away expected_oval_center.y).toNat - oval_template.height / 2)
    (visited_offset_pairs
      ((round_away expected_oval_center.x).toNat - oval_template.width / 2)
      ((round_away expected_oval_center.y).toNat - oval_template.height / 2)
      DEFAULT_MAXIMUM_SEARCH_DISTANCE)
    (visited_offset_pairs_ne_nil _ _)
  rw [show (visited_offset_pairs
      ((round_away expected_oval_center.x).toNat - oval_template.width / 2)
      ((round_away expected_oval_center.y).toNat - oval_template.height / 2)
      DEFAULT_MAXIMUM_SEARCH_DISTANCE)
    = ((search_offset_pairs DEFAULT_MAXIMUM_SEARCH_DISTANCE).filter
        (fun q => decide (0 ≤ (((round_away expected_oval_center.x).toNat
            - oval_template.width / 2 : Nat) : Int) + q.1)
          && decide (0 ≤ (((round_away expected_oval_center.y).toNat
            - oval_template.height / 2 : Nat) : Int) + q.2)))
    from rfl] at hfold
  obtain ⟨ts, tb, td⟩ := t
  refine ⟨{ location := location
            match_score := ts
            fill_score := ratio (diff oval_template (threshold_image
              (crop_image img tb.left.toNat tb.top.toNat tb.width tb.height)
              threshold)) BLACK
            original_bounds :=
              ⟨(((round_away expected_oval_center.x).toNat
                  - oval_template.width / 2 : Nat) : Int),
               (((round_away expected_oval_center.y).toNat
                  - oval_template.height / 2 : Nat) : Int),
               oval_template.width, oval_template.height⟩
            matched_bounds := tb
            source_image := crop_image img tb.left.toNat tb.top.toNat tb.width tb.height
            binarized_source_image := threshold_image
              (crop_image img tb.left.toNat tb.top.toNat tb.width tb.height) threshold
            match_diff_image := td
            fill_diff_image := diff oval_template (threshold_image
              (crop_image img tb.left.toNat tb.top.toNat tb.width tb.height)
              threshold) }, ?_, ?_, ?_, ?_⟩
  · unfold score_oval_mark
    simp only [hbridge, hfold]
  · intro offset hmem
    exact hall offset hmem
  · obtain ⟨q, hqmem, hts, htb, htd⟩ := hatt
    exact ⟨q, hqmem, hts, htb⟩
  · rfl

/-- C7: with the default search distance 7, `score_oval_mark` scores
exactly the offsets of `[-7, 7) × [-7, 7)` whose patch origin has
nonnegative coordinates — the two `continue` guards skip the rest, so near
the image origin part of the square is not searched — and when no visited
patch exceeds the image (otherwise `img.view` panics), it returns a mark
whose match score is the maximum visited offset match score of
`ratio(diff(binarized patch, template), WHITE)`, whose matched bounds are
at a maximum-attaining visited offset, and whose fill score is
`ratio(diff(template, binarized patch), BLACK)` at the matched bounds.
The first four hypotheses keep the Rust run itself well-defined: a
nonempty template keeps the `f32` ratios away from NaN, and a rounded
center at least half a template away from the origin keeps the `u32`
subtractions from underflowing. -/
theorem c7_score_oval_mark_search (img oval_template : GrayImage)
    (expected_oval_center : Point) (location : GridLocation) (threshold : Nat)
    (left top : Nat)
    (hw : 1 ≤ oval_template.width) (hh : 1 ≤ oval_template.height)
    (hcx : oval_template.width / 2 ≤ (round_away expected_oval_center.x).toNat)
    (hcy : oval_template.height / 2 ≤ (round_away expected_oval_center.y).toNat)
    (hleft : left = (round_away expected_oval_center.x).toNat - oval_template.width / 2)
    (htop : top = (round_away expected_oval_center.y).toNat - oval_template.height / 2)
    (hbounds : ∀ q ∈ visited_offset_pairs left top DEFAULT_MAXIMUM_SEARCH_DISTANCE,
      view_in_bounds img ((left : Int) + q.1).toNat ((top : Int) + q.2).toNat
        oval_template.width oval_template.height) :
    ∃ mark : ScoredOvalMark,
      score_oval_mark img oval_template expected_oval_center location
        DEFAULT_MAXIMUM_SEARCH_DISTANCE threshold = some (some mark)
      ∧ (∀ offset ∈ visited_offset_pairs left top DEFAULT_MAXIMUM_SEARCH_DISTANCE,
          offset_match_score img oval_template threshold left top offset
            ≤ mark.match_score)
      ∧ (∃ offset ∈ visited_offset_pairs left top DEFAULT_MAXIMUM_SEARCH_DISTANCE,
          mark.match_score
            = offset_match_score img oval_template threshold left top offset
          ∧ mark.matched_bounds = offset_match_bounds oval_template left top offset)
      ∧ mark.fill_score = ratio (diff oval_template (threshold_image
          (crop_image img mark.matched_bounds.left.toNat mark.matched_bounds.top.toNat
            mark.matched_bounds.width mark.matched_bounds.height) threshold)) BLACK :=
  score_oval_mark_visited_max img oval_template expected_oval_center location
    threshold left top hleft htop hbounds

/-- A 1-by-1 all-black oval template for the C7 witness and
counterexample. -/
def c7_template : GrayImage := ⟨1, 1, fun _ _ => 0⟩

/-- A 16-by-16 image, dark only at pixel (9, 9), for the C7 witness. -/
def c7_img : GrayImage :=
  ⟨16, 16, fun x y => if x = 9 ∧ y = 9 then 0 else 200⟩

/-- The grid location used by the C7 witness and counterexample. -/
def c7_location : GridLocation := ⟨.front, 12, 20⟩

/-- A 16-by-16 all-light image for the C7 counterexample. -/
def c7c_img : GrayImage := ⟨16, 16, fun _ _ => 200⟩

/-- C7 counterexample to the original claim that every integer offset of
`[-7, 7) × [-7, 7)` is searched: with a 1-by-1 template and expected
center `(3, 8)` on an all-light 16-by-16 image the run is fully
well-defined — the call returns a mark — yet the offset `(-7, 0)` of that
square is never scored: the patch x-coordinate `3 - 7` is negative, so the
loop's `continue` guard skips it (the iteration hands its accumulator back
unchanged) and the offset is not among the visited ones. -/
theorem c7_counterexample :
    ((-7 : Int), (0 : Int)) ∈ search_offset_pairs DEFAULT_MAXIMUM_SEARCH_DISTANCE
    ∧ score_step c7c_img c7_template 100 3 8 (some none) ((-7 : Int), (0 : Int))
        = some none
    ∧ ((-7 : Int), (0 : Int)) ∉ visited_offset_pairs 3 8 DEFAULT_MAXIMUM_SEARCH_DISTANCE
    ∧ ∃ mark : ScoredOvalMark,
        score_oval_mark c7c_img c7_template ⟨3, 8⟩ c7_location
          DEFAULT_MAXIMUM_SEARCH_DISTANCE 100 = some (some mark) := by
  refine ⟨by decide, rfl, by decide, ?_⟩
  obtain ⟨mark, hm, _⟩ := score_oval_mark_visited_max c7c_img c7_template ⟨3, 8⟩
    c7_location 100 3 8 (by norm_num [round_away, c7_template]; decide)
    (by norm_num [round_away, c7_template]; decide) (by decide)
  exact ⟨mark, hm⟩

/-- Witness for C7 at a concrete image, template and center. -/
theorem c7_witness :
    ∃ mark : ScoredOvalMark,
      score_oval_mark c7_img c7_template ⟨8, 8⟩ c7_location
        DEFAULT_MAXIMUM_SEARCH_DISTANCE 100 = some (some mark)
      ∧ (∀ offset ∈ visited_offset_pairs 8 8 DEFAULT_MAXIMUM_SEARCH_DISTANCE,
          offset_match_score c7_img c7_template 100 8 8 offset ≤ mark.match_score)
      ∧ (∃ offset ∈ visited_offset_pairs 8 8 DEFAULT_MAXIMUM_SEARCH_DISTANCE,
          mark.match_score = offset_match_score c7_img c7_template 100 8 8 offset
          ∧ mark.matched_bounds = offset_match_bounds c7_template 8 8 offset)
      ∧ mark.fill_score = ratio (diff c7_template (threshold_image
          (crop_image c7_img mark.matched_bounds.left.toNat
            mark.matched_bounds.top.toNat mark.matched_bounds.width
            mark.matched_bounds.height) 100)) BLACK :=
  c7_score_oval_mark_search c7_img c7_template ⟨8, 8⟩ c7_location 100 8 8
    (by decide) (by decide)
    (by norm_num [round_away, c7_template])
    (by norm_num [round_away, c7_template])
    (by norm_num [round_away, c7_template]; decide)
    (by norm_num [round_away, c7_template]; decide)
    (by decide)
